import Mathlib

/-!
Verification of the normalization-and-projection engine of the `data_hw_2`
ETL repository.  The Python sources are shallowly embedded: numeric JSON
values become `ℚ`/`ℤ`, nullable/absent fields become `Option`, database
tables become in-memory lists, and Python's `round(x, 2)` (round half to
even) is modelled exactly on rationals.
-/

namespace Spec2Proof

/-- Round half to even of a rational to the nearest integer, the rounding mode
of Python's built-in `round`. -/
def pyRoundHalfEven (x : ℚ) : ℤ :=
  let f : ℤ := ⌊x⌋
  let frac : ℚ := x - f
  if frac < 1 / 2 then f
  else if 1 / 2 < frac then f + 1
  else if f % 2 = 0 then f else f + 1

/-- Python's `round(x, 2)`: round half to even at two decimal places. -/
def pyRound2 (x : ℚ) : ℚ := (pyRoundHalfEven (x * 100) : ℚ) / 100

/-- Row of `order_items.json` as produced by `transform.DataNormalizer._normalize_cart`
(per cart line item).  `none` stands for an absent or JSON-null field. -/
structure OrderItem where
  id : ℤ
  order_id : ℤ
  product_id : Option ℤ
  quantity : Option ℤ
  price : Option ℚ
  discount_percentage : Option ℚ
  discounted_total : Option ℚ
  total : Option ℚ
deriving Repr, DecidableEq

/-- Fact row of `star_fact_orders`, from `load_star_schema.StarSchemaLoader.load_fact_orders`. -/
structure StarFactRecord where
  order_id : ℤ
  user_id : Option ℤ
  product_id : Option ℤ
  date_id : ℤ
  location_id : Option ℤ
  quantity : ℤ
  unit_price : ℚ
  discount_percentage : ℚ
  discount_amount : ℚ
  subtotal : ℚ
  total_amount : ℚ
  order_status : String
deriving Repr, DecidableEq

/-- Fact row of `snow_fact_orders`, from `load_snowflake_schema.SnowflakeSchemaLoader.load_fact_orders`
(same shape as the star fact minus `location_id`). -/
structure SnowFactRecord where
  order_id : ℤ
  user_id : Option ℤ
  product_id : Option ℤ
  date_id : ℤ
  quantity : ℤ
  unit_price : ℚ
  discount_percentage : ℚ
  discount_amount : ℚ
  subtotal : ℚ
  total_amount : ℚ
  order_status : String
deriving Repr, DecidableEq

/-- Body of the `for item in items` loop of `StarSchemaLoader.load_fact_orders`
(load_star_schema.py lines 387-410).  The order-level values (`order_id`,
`user_id`, `date_id`, `location_id`, `order_status`) are resolved by the
enclosing loop and passed in. -/
def mkStarFactRecord (oid : ℤ) (uid : Option ℤ) (did : ℤ) (lid : Option ℤ)
    (status : String) (item : OrderItem) : StarFactRecord :=
  let discount_pct : ℚ := item.discount_percentage.getD 0
  let unit_price : ℚ := item.price.getD 0
  let quantity : ℤ := item.quantity.getD 0
  let subtotal : ℚ := unit_price * quantity
  let discount_amount : ℚ := subtotal * (discount_pct / 100)
  let total : ℚ := subtotal - discount_amount
  { order_id := oid
    user_id := uid
    product_id := item.product_id
    date_id := did
    location_id := lid
    quantity := quantity
    unit_price := unit_price
    discount_percentage := discount_pct
    discount_amount := pyRound2 discount_amount
    subtotal := pyRound2 subtotal
    total_amount := pyRound2 total
    order_status := status }

/-- Body of the `for item in items` loop of `SnowflakeSchemaLoader.load_fact_orders`
(load_snowflake_schema.py lines 565-587). -/
def mkSnowFactRecord (oid : ℤ) (uid : Option ℤ) (did : ℤ)
    (status : String) (item : OrderItem) : SnowFactRecord :=
  let discount_pct : ℚ := item.discount_percentage.getD 0
  let unit_price : ℚ := item.price.getD 0
  let quantity : ℤ := item.quantity.getD 0
  let subtotal : ℚ := unit_price * quantity
  let discount_amount : ℚ := subtotal * (discount_pct / 100)
  let total : ℚ := subtotal - discount_amount
  { order_id := oid
    user_id := uid
    product_id := item.product_id
    date_id := did
    quantity := quantity
    unit_price := unit_price
    discount_percentage := discount_pct
    discount_amount := pyRound2 discount_amount
    subtotal := pyRound2 subtotal
    total_amount := pyRound2 total
    order_status := status }

/-! Raw (extracted) records, camelCase fields as consumed by
`transform.DataNormalizer`.  `none` models an absent (or JSON-null) field;
an absent nested dict and an empty nested dict are both falsy in Python,
so `Option` on a nested record models the `if user.get("address"):` tests. -/

/-- Raw coordinate pair nested in an address. -/
structure RawCoordinates where
  lat : Option ℚ
  lng : Option ℚ
deriving Repr, DecidableEq

/-- Raw nested address record. -/
structure RawAddress where
  address : Option String
  city : Option String
  state : Option String
  stateCode : Option String
  postalCode : Option String
  country : Option String
  coordinates : Option RawCoordinates
deriving Repr, DecidableEq

/-- Raw nested bank record. -/
structure RawBank where
  cardNumber : Option String
  cardType : Option String
  cardExpire : Option String
  currency : Option String
  iban : Option String
deriving Repr, DecidableEq

/-- Raw nested company record. -/
structure RawCompany where
  name : Option String
  department : Option String
  title : Option String
  address : Option RawAddress
deriving Repr, DecidableEq

/-- Raw nested hair record. -/
structure RawHair where
  color : Option String
  type : Option String
deriving Repr, DecidableEq

/-- Raw nested crypto record. -/
structure RawCrypto where
  coin : Option String
  wallet : Option String
  network : Option String
deriving Repr, DecidableEq

/-- Raw user record from `users.json` (fields read by `_normalize_user`). -/
structure RawUser where
  id : ℤ
  firstName : Option String
  lastName : Option String
  maidenName : Option String
  age : Option ℤ
  gender : Option String
  email : Option String
  phone : Option String
  username : Option String
  password : Option String
  birthDate : Option String
  image : Option String
  bloodGroup : Option String
  height : Option ℚ
  weight : Option ℚ
  eyeColor : Option String
  hair : Option RawHair
  ip : Option String
  macAddress : Option String
  userAgent : Option String
  university : Option String
  ein : Option String
  ssn : Option String
  role : Option String
  crypto : Option RawCrypto
  address : Option RawAddress
  bank : Option RawBank
  company : Option RawCompany
deriving Repr, DecidableEq

/-- Raw nested product dimensions. -/
structure RawDimensions where
  width : Option ℚ
  height : Option ℚ
  depth : Option ℚ
deriving Repr, DecidableEq

/-- Raw nested product meta record. -/
structure RawMeta where
  barcode : Option String
  qrCode : Option String
  createdAt : Option String
  updatedAt : Option String
deriving Repr, DecidableEq

/-- Raw nested review record. -/
structure RawReview where
  rating : Option ℚ
  comment : Option String
  reviewerName : Option String
  reviewerEmail : Option String
  date : Option String
deriving Repr, DecidableEq

/-- Raw product record from `products.json` (fields read by `_normalize_product`). -/
structure RawProduct where
  id : ℤ
  title : Option String
  description : Option String
  category : Option String
  price : Option ℚ
  discountPercentage : Option ℚ
  rating : Option ℚ
  stock : Option ℤ
  brand : Option String
  sku : Option String
  weight : Option ℚ
  dimensions : Option RawDimensions
  warrantyInformation : Option String
  shippingInformation : Option String
  availabilityStatus : Option String
  returnPolicy : Option String
  minimumOrderQuantity : Option ℤ
  meta : Option RawMeta
  thumbnail : Option String
  tags : List String
  images : List String
  reviews : List RawReview
deriving Repr, DecidableEq

/-- Raw cart line item. -/
structure RawCartProduct where
  id : Option ℤ
  quantity : Option ℤ
  price : Option ℚ
  discountPercentage : Option ℚ
  discountedTotal : Option ℚ
  total : Option ℚ
deriving Repr, DecidableEq

/-- Raw cart record from `carts.json`. -/
structure RawCart where
  id : ℤ
  userId : Option ℤ
  total : Option ℚ
  discountedTotal : Option ℚ
  totalProducts : Option ℤ
  totalQuantity : Option ℤ
  products : List RawCartProduct
deriving Repr, DecidableEq

/-! Normalized (3NF) rows, snake_case, as written to `data/processed`. -/

/-- Normalized address row. -/
structure Address where
  id : ℤ
  address_line : String
  city : String
  state : String
  state_code : String
  postal_code : String
  country : String
  latitude : Option ℚ
  longitude : Option ℚ
deriving Repr, DecidableEq

/-- Normalized bank row. -/
structure Bank where
  id : ℤ
  card_number : Option String
  card_type : Option String
  card_expire : Option String
  currency : Option String
  iban : Option String
deriving Repr, DecidableEq

/-- Normalized company row. -/
structure Company where
  id : ℤ
  name : String
  department : Option String
  title : Option String
  address_id : Option ℤ
deriving Repr, DecidableEq

/-- Normalized category row, created by the category natural-key cache. -/
structure Category where
  id : ℤ
  name : String
  slug : String
deriving Repr, DecidableEq

/-- Normalized user row. -/
structure UserRow where
  id : ℤ
  first_name : Option String
  last_name : Option String
  maiden_name : Option String
  age : Option ℤ
  gender : Option String
  email : Option String
  phone : Option String
  username : Option String
  password : Option String
  birth_date : Option String
  image_url : Option String
  blood_group : Option String
  height : Option ℚ
  weight : Option ℚ
  eye_color : Option String
  hair_color : Option String
  hair_type : Option String
  ip_address : Option String
  mac_address : Option String
  user_agent : Option String
  university : Option String
  ein : Option String
  ssn : Option String
  role : String
  crypto_coin : Option String
  crypto_wallet : Option String
  crypto_network : Option String
  bank_id : Option ℤ
  company_id : Option ℤ
  address_id : Option ℤ
deriving Repr, DecidableEq

/-- Normalized product row. -/
structure ProductRow where
  id : ℤ
  title : Option String
  description : Option String
  category_id : ℤ
  price : Option ℚ
  discount_percentage : Option ℚ
  rating : Option ℚ
  stock : Option ℤ
  brand : Option String
  sku : Option String
  weight : Option ℚ
  width : Option ℚ
  height : Option ℚ
  depth : Option ℚ
  warranty_info : Option String
  shipping_info : Option String
  availability_status : Option String
  return_policy : Option String
  minimum_order_quantity : Option ℤ
  barcode : Option String
  qr_code_url : Option String
  thumbnail_url : Option String
  created_at : Option String
  updated_at : Option String
deriving Repr, DecidableEq

/-- Normalized product tag row. -/
structure ProductTag where
  id : ℤ
  product_id : ℤ
  tag : String
deriving Repr, DecidableEq

/-- Normalized product image row. -/
structure ProductImage where
  id : ℤ
  product_id : ℤ
  image_url : String
  image_order : ℕ
deriving Repr, DecidableEq

/-- Normalized review row. -/
structure Review where
  id : ℤ
  product_id : ℤ
  rating : Option ℚ
  comment : Option String
  reviewer_name : Option String
  reviewer_email : Option String
  review_date : Option String
deriving Repr, DecidableEq

/-- Normalized order row (one per cart). -/
structure OrderRow where
  id : ℤ
  user_id : Option ℤ
  total : Option ℚ
  order_date : String
  status : String
  discounted_total : Option ℚ
  total_products : Option ℤ
  total_quantity : Option ℤ
deriving Repr, DecidableEq

/-- Mutable counters and natural-key caches of `transform.DataNormalizer`
(`self.address_id`, ..., `self.category_cache`).  The category cache is an
insertion-ordered association list from slug to the category row, mirroring a
Python dict. -/
structure NormState where
  address_id : ℤ
  bank_id : ℤ
  company_id : ℤ
  category_id : ℤ
  review_id : ℤ
  product_tag_id : ℤ
  product_image_id : ℤ
  order_item_id : ℤ
  category_cache : List (String × Category)
deriving Repr, DecidableEq

/-- Initial normalizer state: every counter at 1, empty caches. -/
def initNormState : NormState :=
  { address_id := 1, bank_id := 1, company_id := 1, category_id := 1,
    review_id := 1, product_tag_id := 1, product_image_id := 1,
    order_item_id := 1, category_cache := [] }

/-- Lookup in an insertion-ordered association list (first match), the model
of `key in dict` / `dict[key]` on a Python dict whose keys are unique. -/
def alistFind {α β : Type} [DecidableEq α] (l : List (α × β)) (k : α) : Option β :=
  match l with
  | [] => none
  | (k₀, v) :: rest => if k = k₀ then some v else alistFind rest k

/-- Category natural key: `category_name.lower().replace(" ", "-")`
(transform.py line 237).  Python's `str.lower` and single-character
`str.replace` are modelled character-wise. -/
def slugify (name : String) : String :=
  ⟨(name.data.map Char.toLower).map fun c => if c = ' ' then '-' else c⟩

/-- Category slug of a raw product, with the source's `"uncategorized"`
default for an absent category name. -/
def rawSlug (p : RawProduct) : String := slugify (p.category.getD "uncategorized")

/-- Category get-or-create of `_normalize_product` (transform.py lines 235-248):
look the slug up in `category_cache`; on a miss, mint a new row with the next
`category_id` and append it; on a hit, return the cached row's id. -/
def getOrCreateCategory (st : NormState) (category : Option String) :
    NormState × ℤ :=
  match alistFind st.category_cache (slugify (category.getD "uncategorized")) with
  | none =>
      ({ st with
          category_cache := st.category_cache ++
            [(slugify (category.getD "uncategorized"),
              ⟨st.category_id, category.getD "uncategorized",
               slugify (category.getD "uncategorized")⟩)],
          category_id := st.category_id + 1 },
       st.category_id)
  | some row => (st, row.id)

/-- Well-formedness of the category cache: slugs (the dict keys) are distinct,
and every cached row carries its own key as `slug`. -/
def CacheWF (st : NormState) : Prop :=
  (st.category_cache.map Prod.fst).Nodup ∧
    ∀ e ∈ st.category_cache, e.2.slug = e.1

/-- Normalized address row built from a raw nested address at a given id
(shared by the user-address and company-address branches of `_normalize_user`). -/
def mkAddress (aid : ℤ) (addr : RawAddress) : Address :=
  { id := aid
    address_line := addr.address.getD ""
    city := addr.city.getD ""
    state := addr.state.getD ""
    state_code := addr.stateCode.getD ""
    postal_code := addr.postalCode.getD ""
    country := addr.country.getD "United States"
    latitude := addr.coordinates.bind RawCoordinates.lat
    longitude := addr.coordinates.bind RawCoordinates.lng }

/-- Result of `_normalize_user` for one raw user. -/
structure UserParts where
  user : UserRow
  address : Option Address
  bank : Option Bank
  company : Option Company
  company_address : Option Address
deriving Repr, DecidableEq

/-- Embedding of `DataNormalizer._normalize_user` (transform.py lines 111-230). -/
def normalizeUser (st : NormState) (u : RawUser) : NormState × UserParts :=
  let addrStep : Option Address × Option ℤ × NormState :=
    match u.address with
    | some addr =>
        (some (mkAddress st.address_id addr), some st.address_id,
         { st with address_id := st.address_id + 1 })
    | none => (none, none, st)
  let address := addrStep.1
  let address_id := addrStep.2.1
  let st1 := addrStep.2.2
  let bankStep : Option Bank × Option ℤ × NormState :=
    match u.bank with
    | some b =>
        (some { id := st1.bank_id, card_number := b.cardNumber,
                card_type := b.cardType, card_expire := b.cardExpire,
                currency := b.currency, iban := b.iban },
         some st1.bank_id, { st1 with bank_id := st1.bank_id + 1 })
    | none => (none, none, st1)
  let bank := bankStep.1
  let bank_id := bankStep.2.1
  let st2 := bankStep.2.2
  let compStep : Option Company × Option Address × Option ℤ × NormState :=
    match u.company with
    | some comp =>
        let caStep : Option Address × Option ℤ × NormState :=
          match comp.address with
          | some ca =>
              (some (mkAddress st2.address_id ca), some st2.address_id,
               { st2 with address_id := st2.address_id + 1 })
          | none => (none, none, st2)
        let st3 := caStep.2.2
        (some { id := st3.company_id, name := comp.name.getD "",
                department := comp.department, title := comp.title,
                address_id := caStep.2.1 },
         caStep.1, some st3.company_id,
         { st3 with company_id := st3.company_id + 1 })
    | none => (none, none, none, st2)
  let company := compStep.1
  let company_address := compStep.2.1
  let company_id := compStep.2.2.1
  let st4 := compStep.2.2.2
  let userRow : UserRow :=
    { id := u.id
      first_name := u.firstName
      last_name := u.lastName
      maiden_name := u.maidenName
      age := u.age
      gender := u.gender
      email := u.email
      phone := u.phone
      username := u.username
      password := u.password
      birth_date := u.birthDate
      image_url := u.image
      blood_group := u.bloodGroup
      height := u.height
      weight := u.weight
      eye_color := u.eyeColor
      hair_color := u.hair.bind RawHair.color
      hair_type := u.hair.bind RawHair.type
      ip_address := u.ip
      mac_address := u.macAddress
      user_agent := u.userAgent
      university := u.university
      ein := u.ein
      ssn := u.ssn
      role := u.role.getD "user"
      crypto_coin := u.crypto.bind RawCrypto.coin
      crypto_wallet := u.crypto.bind RawCrypto.wallet
      crypto_network := u.crypto.bind RawCrypto.network
      bank_id := bank_id
      company_id := company_id
      address_id := address_id }
  (st4, { user := userRow, address := address, bank := bank,
          company := company, company_address := company_address })

/-- Result of `_normalize_product` for one raw product. -/
structure ProductParts where
  product : ProductRow
  tags : List ProductTag
  images : List ProductImage
  reviews : List Review
deriving Repr, DecidableEq

/-- Embedding of `DataNormalizer._normalize_product` (transform.py lines
232-326).  The per-element id counters of the Python loops are rendered as
`counter + index`, with the counter advanced by the list length. -/
def normalizeProduct (st : NormState) (p : RawProduct) :
    NormState × ProductParts :=
  let catStep := getOrCreateCategory st p.category
  let st1 := catStep.1
  let category_id := catStep.2
  let row : ProductRow :=
    { id := p.id
      title := p.title
      description := p.description
      category_id := category_id
      price := p.price
      discount_percentage := p.discountPercentage
      rating := p.rating
      stock := p.stock
      brand := p.brand
      sku := p.sku
      weight := p.weight
      width := p.dimensions.bind RawDimensions.width
      height := p.dimensions.bind RawDimensions.height
      depth := p.dimensions.bind RawDimensions.depth
      warranty_info := p.warrantyInformation
      shipping_info := p.shippingInformation
      availability_status := p.availabilityStatus
      return_policy := p.returnPolicy
      minimum_order_quantity := p.minimumOrderQuantity
      barcode := p.meta.bind RawMeta.barcode
      qr_code_url := p.meta.bind RawMeta.qrCode
      thumbnail_url := p.thumbnail
      created_at := p.meta.bind RawMeta.createdAt
      updated_at := p.meta.bind RawMeta.updatedAt }
  let tags := p.tags.mapIdx fun i t =>
    ({ id := st1.product_tag_id + (i : ℤ), product_id := p.id, tag := t } : ProductTag)
  let st2 := { st1 with product_tag_id := st1.product_tag_id + (p.tags.length : ℤ) }
  let images := p.images.mapIdx fun i u =>
    ({ id := st2.product_image_id + (i : ℤ), product_id := p.id,
       image_url := u, image_order := i } : ProductImage)
  let st3 := { st2 with product_image_id := st2.product_image_id + (p.images.length : ℤ) }
  let reviews := p.reviews.mapIdx fun i r =>
    ({ id := st3.review_id + (i : ℤ), product_id := p.id, rating := r.rating,
       comment := r.comment, reviewer_name := r.reviewerName,
       reviewer_email := r.reviewerEmail, review_date := r.date } : Review)
  let st4 := { st3 with review_id := st3.review_id + (p.reviews.length : ℤ) }
  (st4, { product := row, tags := tags, images := images, reviews := reviews })

/-- Embedding of `DataNormalizer._normalize_cart` (transform.py lines 328-361).
The randomly generated `order_date` and `status` are passed in (the source
draws them from `random`; they carry no invariant). -/
def normalizeCart (st : NormState) (order_date status : String) (c : RawCart) :
    NormState × (OrderRow × List OrderItem) :=
  let order : OrderRow :=
    { id := c.id, user_id := c.userId, total := c.total,
      order_date := order_date, status := status,
      discounted_total := c.discountedTotal, total_products := c.totalProducts,
      total_quantity := c.totalQuantity }
  let items := c.products.mapIdx fun i p =>
    ({ id := st.order_item_id + (i : ℤ), order_id := c.id, product_id := p.id,
       quantity := p.quantity, price := p.price,
       discount_percentage := p.discountPercentage,
       discounted_total := p.discountedTotal, total := p.total } : OrderItem)
  let st1 := { st with order_item_id := st.order_item_id + (c.products.length : ℤ) }
  (st1, (order, items))

/-- User loop of `normalize_all` (transform.py lines 62-72). -/
def normalizeUsersList (st : NormState) : List RawUser → NormState × List UserParts
  | [] => (st, [])
  | u :: rest =>
      let step := normalizeUser st u
      let tail := normalizeUsersList step.1 rest
      (tail.1, step.2 :: tail.2)

/-- Product loop of `normalize_all` (transform.py lines 81-86). -/
def normalizeProductsList (st : NormState) :
    List RawProduct → NormState × List ProductParts
  | [] => (st, [])
  | p :: rest =>
      let step := normalizeProduct st p
      let tail := normalizeProductsList step.1 rest
      (tail.1, step.2 :: tail.2)

/-- Stand-in for the `random` module: the synthetic order date and status for
the cart at a given position in the cart list. -/
structure RandomOracle where
  orderDateAt : ℕ → String
  statusAt : ℕ → String

/-- Cart loop of `normalize_all` (transform.py lines 98-101), threading the
cart's position for the random draws. -/
def normalizeCartsList (rnd : RandomOracle) (st : NormState) (i : ℕ) :
    List RawCart → NormState × List (OrderRow × List OrderItem)
  | [] => (st, [])
  | c :: rest =>
      let step := normalizeCart st (rnd.orderDateAt i) (rnd.statusAt i) c
      let tail := normalizeCartsList rnd step.1 (i + 1) rest
      (tail.1, step.2 :: tail.2)

/-- The normalized table set produced by `normalize_all`. -/
structure Tables where
  addresses : List Address
  banks : List Bank
  companies : List Company
  categories : List Category
  users : List UserRow
  products : List ProductRow
  product_tags : List ProductTag
  product_images : List ProductImage
  reviews : List Review
  orders : List OrderRow
  order_items : List OrderItem
deriving Repr, DecidableEq

/-- Addresses contributed by one user, in the order `normalize_all` appends
them: the user's own address, then (inside the `if company:` branch) the
company address. -/
def userPartsAddresses (p : UserParts) : List Address :=
  p.address.toList ++ (match p.company with
    | some _ => p.company_address.toList
    | none => [])

/-- Pure core of `DataNormalizer.normalize_all` (transform.py lines 35-109):
the three normalization loops and the table assembly, given already-loaded
raw collections. -/
def normalizeAllPure (users : List RawUser) (products : List RawProduct)
    (carts : List RawCart) (rnd : RandomOracle) : Tables :=
  let uStep := normalizeUsersList initNormState users
  let pStep := normalizeProductsList uStep.1 products
  let cStep := normalizeCartsList rnd pStep.1 0 carts
  { addresses := uStep.2.flatMap userPartsAddresses
    banks := uStep.2.filterMap UserParts.bank
    companies := uStep.2.filterMap UserParts.company
    categories := pStep.1.category_cache.map Prod.snd
    users := uStep.2.map (fun p => p.user)
    products := pStep.2.map ProductParts.product
    product_tags := pStep.2.flatMap ProductParts.tags
    product_images := pStep.2.flatMap ProductParts.images
    reviews := pStep.2.flatMap ProductParts.reviews
    orders := cStep.2.map Prod.fst
    order_items := cStep.2.flatMap Prod.snd }

/-- Raw data directory: `none` means the file is absent. -/
structure RawDir where
  users : Option (List RawUser)
  products : Option (List RawProduct)
  carts : Option (List RawCart)

/-- Embedding of `DataNormalizer._load_json` (transform.py lines 363-367):
the file is opened with no existence check, so an absent file raises
`FileNotFoundError` (modelled as `Except.error`). -/
def transformLoadJson {α : Type} (contents : Option (List α)) :
    Except String (List α) :=
  match contents with
  | some l => .ok l
  | none => .error "FileNotFoundError"

/-- Embedding of the `_load_json` used by the schema/document loaders
(load_star_schema.py lines 515-524, load_snowflake_schema.py lines 688-697,
load_mongo.py lines 122-131): an absent file is logged and treated as an
empty list. -/
def loaderLoadJson {α : Type} (contents : Option (List α)) : List α :=
  match contents with
  | some l => l
  | none => []

/-- Embedding of `DataNormalizer.normalize_all` (transform.py lines 35-109)
including the three `_load_json` calls, which raise on an absent file. -/
def normalizeAll (dir : RawDir) (rnd : RandomOracle) : Except String Tables := do
  let users_raw ← transformLoadJson dir.users
  let products_raw ← transformLoadJson dir.products
  let carts_raw ← transformLoadJson dir.carts
  pure (normalizeAllPure users_raw products_raw carts_raw rnd)

/-- Constant random oracle used by concrete instances. -/
def oracle0 : RandomOracle := ⟨fun _ => "2025-01-01T12:00:00", fun _ => "completed"⟩

/-- Raw product with only a category name, all other fields empty. -/
def rawProductOfCategory (cat : Option String) : RawProduct :=
  { id := 1, title := none, description := none, category := cat, price := none,
    discountPercentage := none, rating := none, stock := none, brand := none,
    sku := none, weight := none, dimensions := none, warrantyInformation := none,
    shippingInformation := none, availabilityStatus := none, returnPolicy := none,
    minimumOrderQuantity := none, meta := none, thumbnail := none, tags := [],
    images := [], reviews := [] }

/-! Document projector (`load_mongo.MongoDataLoader`).  Python's
`{r["id"]: r for r in rows}` dict comprehension keeps the last row per key;
`pyDictOfList` models `dict.get` on such a dict. -/

/-- Model of `get` on the dict built by `{key(r): r for r in rows}`:
the last row whose key matches wins. -/
def pyDictOfList {α β : Type} [DecidableEq α] (key : β → α) (rows : List β)
    (k : α) : Option β :=
  rows.foldl (fun acc r => if key r = k then some r else acc) none

/-- Coordinates sub-document. -/
structure CoordinatesDoc where
  lat : Option ℚ
  lng : Option ℚ
deriving Repr, DecidableEq

/-- Embedded address sub-document. -/
structure AddressDoc where
  address_line : String
  city : String
  state : String
  state_code : String
  postal_code : String
  country : String
  coordinates : CoordinatesDoc
deriving Repr, DecidableEq

/-- Embedded bank sub-document. -/
structure BankDoc where
  card_number : Option String
  card_type : Option String
  card_expire : Option String
  currency : Option String
  iban : Option String
deriving Repr, DecidableEq

/-- Embedded company sub-document; `address` is added only when the company's
own `address_id` resolves. -/
structure CompanyDoc where
  name : String
  department : Option String
  title : Option String
  address : Option AddressDoc
deriving Repr, DecidableEq

/-- Hair sub-document of a user document. -/
structure HairDoc where
  color : Option String
  type : Option String
deriving Repr, DecidableEq

/-- Crypto sub-document of a user document. -/
structure CryptoDoc where
  coin : Option String
  wallet : Option String
  network : Option String
deriving Repr, DecidableEq

/-- Denormalized user document; an `Option` sub-object models presence or
absence of the corresponding key in the Python dict. -/
structure UserDoc where
  _id : ℤ
  first_name : Option String
  last_name : Option String
  maiden_name : Option String
  age : Option ℤ
  gender : Option String
  email : Option String
  phone : Option String
  username : Option String
  password : Option String
  birth_date : Option String
  image_url : Option String
  blood_group : Option String
  height : Option ℚ
  weight : Option ℚ
  eye_color : Option String
  hair : HairDoc
  ip_address : Option String
  mac_address : Option String
  user_agent : Option String
  university : Option String
  ein : Option String
  ssn : Option String
  role : String
  crypto : CryptoDoc
  address : Option AddressDoc
  bank : Option BankDoc
  company : Option CompanyDoc
deriving Repr, DecidableEq

/-- Address sub-document built from a normalized address row
(load_mongo.py lines 183-194 and 221-232). -/
def mkAddressDoc (a : Address) : AddressDoc :=
  { address_line := a.address_line
    city := a.city
    state := a.state
    state_code := a.state_code
    postal_code := a.postal_code
    country := a.country
    coordinates := { lat := a.latitude, lng := a.longitude } }

/-- Bank sub-document built from a normalized bank row
(load_mongo.py lines 200-206). -/
def mkBankDoc (b : Bank) : BankDoc :=
  { card_number := b.card_number
    card_type := b.card_type
    card_expire := b.card_expire
    currency := b.currency
    iban := b.iban }

/-- Per-user body of `MongoDataLoader._denormalize_users`
(load_mongo.py lines 143-234): base document plus conditional embedding of
the resolved address, bank and company (the company with its own resolved
address). -/
def denormUser (addresses : List Address) (banks : List Bank)
    (companies : List Company) (user : UserRow) : UserDoc :=
  { _id := user.id
    first_name := user.first_name
    last_name := user.last_name
    maiden_name := user.maiden_name
    age := user.age
    gender := user.gender
    email := user.email
    phone := user.phone
    username := user.username
    password := user.password
    birth_date := user.birth_date
    image_url := user.image_url
    blood_group := user.blood_group
    height := user.height
    weight := user.weight
    eye_color := user.eye_color
    hair := { color := user.hair_color, type := user.hair_type }
    ip_address := user.ip_address
    mac_address := user.mac_address
    user_agent := user.user_agent
    university := user.university
    ein := user.ein
    ssn := user.ssn
    role := user.role
    crypto := { coin := user.crypto_coin, wallet := user.crypto_wallet,
                network := user.crypto_network }
    address := (user.address_id.bind (pyDictOfList Address.id addresses)).map
      mkAddressDoc
    bank := (user.bank_id.bind (pyDictOfList Bank.id banks)).map mkBankDoc
    company := (user.company_id.bind (pyDictOfList Company.id companies)).map
      fun comp =>
        { name := comp.name
          department := comp.department
          title := comp.title
          address := (comp.address_id.bind
            (pyDictOfList Address.id addresses)).map mkAddressDoc } }

/-- Embedding of `MongoDataLoader._denormalize_users` (load_mongo.py
lines 133-236). -/
def denormalizeUsers (d : Tables) : List UserDoc :=
  d.users.map (denormUser d.addresses d.banks d.companies)

/-- Embedded order line item sub-document (load_mongo.py lines 388-400). -/
structure OrderItemDoc where
  product_id : ℤ
  title : Option String
  category : Option String
  price : Option ℚ
  quantity : Option ℤ
  total : Option ℚ
  discount_percentage : Option ℚ
  discounted_total : Option ℚ
  thumbnail : Option String
deriving Repr, DecidableEq

/-- Minimal embedded user sub-object of an order document
(load_mongo.py lines 365-371). -/
structure OrderUserDoc where
  id : ℤ
  username : Option String
  first_name : Option String
  last_name : Option String
  email : Option String
deriving Repr, DecidableEq

/-- Denormalized order document. -/
structure OrderDoc where
  _id : ℤ
  order_date : String
  status : String
  total : Option ℚ
  discounted_total : Option ℚ
  total_products : Option ℤ
  total_quantity : Option ℤ
  user : Option OrderUserDoc
  items : List OrderItemDoc
deriving Repr, DecidableEq

/-- Grouping of order items by `order_id` (load_mongo.py lines 341-345):
`items_by_order.get(oid, [])` returns the items with that `order_id` in
source order. -/
def itemsByOrder (items : List OrderItem) (oid : ℤ) : List OrderItem :=
  items.filter fun it => it.order_id = oid

/-- Embedded item for one order line, `none` when the item's `product_id`
does not resolve in the products dict (the `if product_id in products:`
guard of load_mongo.py line 380). -/
def mkOrderItemDoc (products : List ProductRow) (categories : List Category)
    (item : OrderItem) : Option OrderItemDoc :=
  match item.product_id.bind (pyDictOfList ProductRow.id products) with
  | none => none
  | some product =>
      some { product_id := product.id
             title := product.title
             category := (pyDictOfList Category.id categories
               product.category_id).map Category.name
             price := item.price
             quantity := item.quantity
             total := item.total
             discount_percentage := item.discount_percentage
             discounted_total := item.discounted_total
             thumbnail := product.thumbnail_url }

/-- Per-order body of `MongoDataLoader._denormalize_orders`
(load_mongo.py lines 349-402). -/
def denormOrder (users : List UserRow) (products : List ProductRow)
    (categories : List Category) (order_items : List OrderItem)
    (o : OrderRow) : OrderDoc :=
  { _id := o.id
    order_date := o.order_date
    status := o.status
    total := o.total
    discounted_total := o.discounted_total
    total_products := o.total_products
    total_quantity := o.total_quantity
    user := (o.user_id.bind (pyDictOfList UserRow.id users)).map fun u =>
      { id := u.id, username := u.username, first_name := u.first_name,
        last_name := u.last_name, email := u.email }
    items := (itemsByOrder order_items o.id).filterMap
      (mkOrderItemDoc products categories) }

/-- Embedding of `MongoDataLoader._denormalize_orders` (load_mongo.py
lines 332-404). -/
def denormalizeOrders (d : Tables) : List OrderDoc :=
  d.orders.map (denormOrder d.users d.products d.categories d.order_items)

/-! Calendar dimension builder (`_generate_date_dimension`, identical in
load_star_schema.py lines 192-259 and load_snowflake_schema.py lines
474-537).  Python's `datetime`/`timedelta(days=1)` arithmetic is modelled by
a proleptic-Gregorian date type with a successor function; `weekday()` and
`isocalendar()[1]` are library calls, modelled by the rata-die weekday
(0001-01-01 is a Monday, Monday = 0) and the standard ISO-8601 week-number
algorithm they implement. -/

/-- Calendar date (proleptic Gregorian). -/
structure Date where
  year : ℕ
  month : ℕ
  day : ℕ
deriving Repr, DecidableEq

/-- Gregorian leap-year rule. -/
def isLeap (y : ℕ) : Bool := y % 4 == 0 && (y % 100 != 0 || y % 400 == 0)

/-- Days in a month of a given year. -/
def daysInMonth (y m : ℕ) : ℕ :=
  if m = 2 then (if isLeap y then 29 else 28)
  else if m = 4 ∨ m = 6 ∨ m = 9 ∨ m = 11 then 30
  else 31

/-- The successor day: `current += timedelta(days=1)`. -/
def nextDay (d : Date) : Date :=
  if d.day < daysInMonth d.year d.month then ⟨d.year, d.month, d.day + 1⟩
  else if d.month < 12 then ⟨d.year, d.month + 1, 1⟩
  else ⟨d.year + 1, 1, 1⟩

/-- A well-formed calendar date. -/
def ValidDate (d : Date) : Prop :=
  1 ≤ d.month ∧ d.month ≤ 12 ∧ 1 ≤ d.day ∧ d.day ≤ daysInMonth d.year d.month

instance (d : Date) : Decidable (ValidDate d) := by
  unfold ValidDate
  infer_instance

/-- Strict lexicographic (chronological) order on dates. -/
def dateLT (a b : Date) : Prop :=
  a.year < b.year ∨ (a.year = b.year ∧
    (a.month < b.month ∨ (a.month = b.month ∧ a.day < b.day)))

/-- Chronological order on dates. -/
def dateLE (a b : Date) : Prop :=
  a.year < b.year ∨ (a.year = b.year ∧
    (a.month < b.month ∨ (a.month = b.month ∧ a.day ≤ b.day)))

/-- Days of the year before the first of the given month. -/
def daysBeforeMonth (y m : ℕ) : ℕ :=
  (List.range (m - 1)).foldl (fun a i => a + daysInMonth y (i + 1)) 0

/-- Rata-die day number: 0001-01-01 is day 1. -/
def dayNumber (d : Date) : ℕ :=
  365 * (d.year - 1) + (d.year - 1) / 4 - (d.year - 1) / 100 +
    (d.year - 1) / 400 + daysBeforeMonth d.year d.month + d.day

/-- Python's `date.weekday()`: Monday = 0 .. Sunday = 6; 0001-01-01 is a
Monday. -/
def weekday (d : Date) : ℕ := (dayNumber d + 6) % 7

/-- Ordinal day within the year (1-based). -/
def dayOfYear (d : Date) : ℕ := daysBeforeMonth d.year d.month + d.day

/-- Weekday of December 31 of a year (helper of the ISO week count). -/
def pIso (y : ℕ) : ℕ := (y + y / 4 - y / 100 + y / 400) % 7

/-- Number of ISO weeks in a year: 53 when the year starts or ends on a
Thursday, else 52. -/
def isoWeeksInYear (y : ℕ) : ℕ :=
  52 + (if pIso y = 4 ∨ pIso (y - 1) = 3 then 1 else 0)

/-- ISO-8601 week number, the model of Python's `isocalendar()[1]`. -/
def isoWeek (d : Date) : ℕ :=
  let w := (dayOfYear d + 10 - (weekday d + 1)) / 7
  if w = 0 then isoWeeksInYear (d.year - 1)
  else if w = 53 ∧ isoWeeksInYear d.year = 52 then 1
  else w

/-- English month names (source lines 207-220). -/
def monthNames : List String :=
  ["January", "February", "March", "April", "May", "June", "July", "August",
   "September", "October", "November", "December"]

/-- English day names, Monday first (source lines 221-229). -/
def dayNames : List String :=
  ["Monday", "Tuesday", "Wednesday", "Thursday", "Friday", "Saturday",
   "Sunday"]

/-- The fixed holiday set (month, day) of the generator (source lines
199-204). -/
def holidays : List (ℕ × ℕ) := [(1, 1), (7, 4), (12, 25)]

/-- Row of the date dimension. -/
structure DateRow where
  date_id : ℕ
  full_date : Date
  year : ℕ
  quarter : ℕ
  month : ℕ
  month_name : String
  day : ℕ
  day_of_week : ℕ
  day_name : String
  week_of_year : ℕ
  is_weekend : Bool
  is_holiday : Bool
  fiscal_year : ℕ
  fiscal_quarter : ℤ
deriving Repr, DecidableEq

/-- The row appended for one day of the `while` loop (source lines 231-254). -/
def mkDateRow (date_id : ℕ) (cur : Date) : DateRow :=
  { date_id := date_id
    full_date := cur
    year := cur.year
    quarter := (cur.month - 1) / 3 + 1
    month := cur.month
    month_name := monthNames.getD (cur.month - 1) ""
    day := cur.day
    day_of_week := weekday cur + 1
    day_name := dayNames.getD (weekday cur) ""
    week_of_year := isoWeek cur
    is_weekend := decide (5 ≤ weekday cur)
    is_holiday := decide ((cur.month, cur.day) ∈ holidays)
    fiscal_year := if cur.month < 10 then cur.year else cur.year + 1
    fiscal_quarter := ((cur.month : ℤ) - 10) % 12 / 3 + 1 }

/-- The `while current.year <= end_year` loop as a fuelled recursion; the
fuel bound is an artifact of the embedding and `genFuel` below is proven
sufficient, so the produced list equals the loop's output. -/
def genDatesAux (endYear : ℕ) : ℕ → Date → ℕ → List DateRow
  | 0, _, _ => []
  | fuel + 1, cur, date_id =>
      if cur.year ≤ endYear then
        mkDateRow date_id cur ::
          genDatesAux endYear fuel (nextDay cur) (date_id + 1)
      else []

/-- Fuel that provably outlasts the loop. -/
def genFuel (startYear endYear : ℕ) : ℕ := (endYear + 1 - startYear) * 372 + 400

/-- Termination measure of the date loop. -/
def dateMeasure (endYear : ℕ) (d : Date) : ℕ :=
  (endYear + 1 - d.year) * 372 + (12 - d.month) * 31 + (31 - d.day)

/-- Embedding of `_generate_date_dimension(start_year, end_year)`:
`date_id` starts at 1 and the loop starts at January 1 of `start_year`. -/
def generateDateDimension (startYear endYear : ℕ) : List DateRow :=
  genDatesAux endYear (genFuel startYear endYear) ⟨startYear, 1, 1⟩ 1

/-! Snowflake sub-dimensions (`load_snowflake_schema.SnowflakeSchemaLoader`).
The freshly created database tables are modelled as in-memory lists with
serial ids assigned from 1 in insertion order; the loader's lookup caches are
association lists. -/

/-- Insertion into a Python dict: an existing key keeps its position but gets
the new value, a new key is appended. -/
def pyDictInsert {α β : Type} [DecidableEq α] (l : List (α × β)) (k : α)
    (v : β) : List (α × β) :=
  if (l.map Prod.fst).contains k then
    l.map fun e => if e.1 = k then (k, v) else e
  else l ++ [(k, v)]

/-- The fixed US state-code to region table (load_snowflake_schema.py lines
229-261), in source order. -/
def usRegions : List (String × List String) :=
  [("Northeast", ["NY", "PA", "NJ", "MA", "CT", "RI", "VT", "NH", "ME"]),
   ("Southeast", ["FL", "GA", "SC", "NC", "VA", "WV", "KY", "TN", "AL", "MS",
     "AR", "LA"]),
   ("Midwest", ["OH", "MI", "IN", "IL", "WI", "MN", "IA", "MO", "ND", "SD",
     "NE", "KS"]),
   ("Southwest", ["TX", "OK", "NM", "AZ"]),
   ("West", ["CA", "NV", "UT", "CO", "WY", "MT", "ID", "WA", "OR", "AK", "HI"])]

/-- Embedding of the nested `get_region` (load_snowflake_schema.py lines
263-267): first region whose list holds the code, `"Other"` otherwise. -/
def getRegion (state_code : String) : String :=
  match usRegions.find? (fun r => r.2.contains state_code) with
  | some r => r.1
  | none => "Other"

/-- Row of `snow_dim_states`. -/
structure StateDimRow where
  state_id : ℤ
  state_name : String
  state_code : String
  region : String
  country : String
deriving Repr, DecidableEq

/-- Row of `snow_dim_cities`. -/
structure CityDimRow where
  city_id : ℤ
  city_name : String
  state_id : ℤ
  population : Option ℤ
  timezone : Option String
deriving Repr, DecidableEq

/-- The `states` dict of `load_dim_states` (load_snowflake_schema.py lines
218-224): code-keyed, requiring both code and name truthy, last name wins. -/
def statesDict (addresses : List Address) : List (String × String) :=
  addresses.foldl
    (fun acc addr =>
      if addr.state_code ≠ "" ∧ addr.state ≠ "" then
        pyDictInsert acc addr.state_code addr.state
      else acc)
    []

/-- Embedding of `load_dim_states` (load_snowflake_schema.py lines 211-295)
against a fresh table: one row per dict entry with serial `state_id` from 1,
and the code-to-id cache built from the table. -/
def loadDimStates (addresses : List Address) :
    List StateDimRow × List (String × ℤ) :=
  let states := statesDict addresses
  let table := states.enum.map fun e =>
    ({ state_id := (e.1 : ℤ) + 1, state_name := e.2.2, state_code := e.2.1,
       region := getRegion e.2.1, country := "United States" } : StateDimRow)
  (table, table.map fun r => (r.state_code, r.state_id))

/-- The `cities` dict of `load_dim_cities` (load_snowflake_schema.py lines
303-312): keyed by `(city_name, state_id)`; an address whose city or code is
falsy, or whose code has no truthy entry in the state cache, contributes
nothing. -/
def cityStep (state_cache : List (String × ℤ))
    (acc : List ((String × ℤ) × String)) (addr : Address) :
    List ((String × ℤ) × String) :=
  if addr.city ≠ "" ∧ addr.state_code ≠ "" then
    match alistFind state_cache addr.state_code with
    | some sid =>
        if sid ≠ 0 then pyDictInsert acc (addr.city, sid) addr.city else acc
    | none => acc
  else acc

/-- The `cities` dict as the fold of `cityStep` over the addresses. -/
def citiesDict (addresses : List Address) (state_cache : List (String × ℤ)) :
    List ((String × ℤ) × String) :=
  addresses.foldl (cityStep state_cache) []

/-- Embedding of `load_dim_cities` (load_snowflake_schema.py lines 297-340)
against a fresh table: one row per dict key with serial `city_id` from 1. -/
def loadDimCities (addresses : List Address)
    (state_cache : List (String × ℤ)) :
    List CityDimRow × List ((String × ℤ) × ℤ) :=
  let cities := citiesDict addresses state_cache
  let table := cities.enum.map fun e =>
    ({ city_id := (e.1 : ℤ) + 1, city_name := e.2.1.1, state_id := e.2.1.2,
       population := none, timezone := none } : CityDimRow)
  (table, table.map fun r => ((r.city_name, r.state_id), r.city_id))

/-- Address with a truthy state code but falsy state name: it enters no state
row, so its city is silently dropped. -/
def addrNoStateName : Address :=
  ⟨1, "1 Nowhere Rd", "Ghosttown", "", "ZZ", "00000", "United States",
   none, none⟩

/-! Validator (`validate.data_validator.DataValidator`).  Report messages are
modelled structurally (constructor per message kind) instead of as f-strings. -/

/-- Referential-integrity violation reports of
`_validate_referential_integrity` (data_validator.py lines 212-279),
one constructor per foreign-key relationship. -/
inductive RIError where
  | orderUser (orderId : ℤ) (userId : ℤ)
  | itemOrder (itemId : ℤ) (orderId : ℤ)
  | itemProduct (itemId : ℤ) (productId : ℤ)
  | userAddress (userId : ℤ) (addressId : ℤ)
  | productCategory (productId : ℤ) (categoryId : ℤ)
deriving Repr, DecidableEq

/-- Loop body for `orders -> users`: Python's
`if order.get("user_id") and order["user_id"] not in user_ids` — the guard is
truthiness, so a null or zero foreign key is skipped. -/
def checkOrderUser (user_ids : List ℤ) (o : OrderRow) : Option RIError :=
  match o.user_id with
  | some v => if v ≠ 0 ∧ v ∉ user_ids then some (.orderUser o.id v) else none
  | none => none

/-- Loop body for `order_items -> orders` (the normalized `order_id` is always
present, so truthiness is just the zero test). -/
def checkItemOrder (order_ids : List ℤ) (it : OrderItem) : Option RIError :=
  if it.order_id ≠ 0 ∧ it.order_id ∉ order_ids then
    some (.itemOrder it.id it.order_id)
  else none

/-- Loop body for `order_items -> products`. -/
def checkItemProduct (product_ids : List ℤ) (it : OrderItem) : Option RIError :=
  match it.product_id with
  | some v => if v ≠ 0 ∧ v ∉ product_ids then some (.itemProduct it.id v) else none
  | none => none

/-- Loop body for `users -> addresses`. -/
def checkUserAddress (address_ids : List ℤ) (u : UserRow) : Option RIError :=
  match u.address_id with
  | some v => if v ≠ 0 ∧ v ∉ address_ids then some (.userAddress u.id v) else none
  | none => none

/-- Loop body for `products -> categories` (the normalized `category_id` is
always present, so truthiness is just the zero test). -/
def checkProductCategory (category_ids : List ℤ) (p : ProductRow) :
    Option RIError :=
  if p.category_id ≠ 0 ∧ p.category_id ∉ category_ids then
    some (.productCategory p.id p.category_id)
  else none

/-- Embedding of `DataValidator._validate_referential_integrity`
(data_validator.py lines 212-279): build the target id sets, then run the
five relationship loops in source order. -/
def validateReferentialIntegrity (users : List UserRow)
    (products : List ProductRow) (orders : List OrderRow)
    (order_items : List OrderItem) (addresses : List Address)
    (categories : List Category) : List RIError :=
  let user_ids := users.map UserRow.id
  let product_ids := products.map ProductRow.id
  let order_ids := orders.map OrderRow.id
  let address_ids := addresses.map Address.id
  let category_ids := categories.map Category.id
  orders.filterMap (checkOrderUser user_ids) ++
    order_items.filterMap (checkItemOrder order_ids) ++
    order_items.filterMap (checkItemProduct product_ids) ++
    users.filterMap (checkUserAddress address_ids) ++
    products.filterMap (checkProductCategory category_ids)

/-- Relationship tag of a referential-integrity report (proof helper used to
separate the five report blocks). -/
def RIError.tag : RIError → ℕ
  | .orderUser .. => 0
  | .itemOrder .. => 1
  | .itemProduct .. => 2
  | .userAddress .. => 3
  | .productCategory .. => 4

/-- Field-level validation errors, one constructor per message kind. -/
inductive VErr where
  | missingField (file : String) (idx : ℕ) (field : String)
  | negativePrice (idx : ℕ)
  | negativeTotal (idx : ℕ)
  | invalidQuantity (idx : ℕ)
  | fileNotFound (file : String)
  | fkViolation (e : RIError)
  | fkCheckFailed
deriving Repr, DecidableEq

/-- Field-level validation warnings, one constructor per message kind. -/
inductive VWarn where
  | emptyFile (file : String)
  | invalidEmail (idx : ℕ)
  | suspiciousAge (idx : ℕ)
  | negativeStock (idx : ℕ)
  | ratingOutOfRange (idx : ℕ)
  | missingCityState (idx : ℕ)
deriving Repr, DecidableEq

/-- Embedding of `_validate_users` (data_validator.py lines 106-131).  In the
normalized shape `id` is always present, so only `email`/`username` can be
missing or null; the email and age checks fire only on truthy values, and
Python's `"@" in email` is the character test on the string's characters. -/
def validateUsers (users : List UserRow) : List VErr × List VWarn :=
  (users.enum.flatMap fun e =>
    (if e.2.email = none then [VErr.missingField "users.json" e.1 "email"]
     else []) ++
    (if e.2.username = none then [VErr.missingField "users.json" e.1 "username"]
     else []),
   users.enum.flatMap fun e =>
    (match e.2.email with
     | some s => if s ≠ "" ∧ ¬ s.data.contains '@' then [VWarn.invalidEmail e.1]
                 else []
     | none => []) ++
    (match e.2.age with
     | some a => if a ≠ 0 ∧ ¬ (0 < a ∧ a < 120) then [VWarn.suspiciousAge e.1]
                 else []
     | none => []))

/-- Embedding of `_validate_products` (data_validator.py lines 133-163).
`id` is always present in the normalized shape; `title` errors when absent or
empty (falsy); price/stock/rating checks fire only on truthy values. -/
def validateProducts (products : List ProductRow) : List VErr × List VWarn :=
  (products.enum.flatMap fun e =>
    (if e.2.title = none ∨ e.2.title = some "" then
       [VErr.missingField "products.json" e.1 "title"]
     else []) ++
    (match e.2.price with
     | some p => if p ≠ 0 ∧ p < 0 then [VErr.negativePrice e.1] else []
     | none => []),
   products.enum.flatMap fun e =>
    (match e.2.stock with
     | some s => if s ≠ 0 ∧ s < 0 then [VWarn.negativeStock e.1] else []
     | none => []) ++
    (match e.2.rating with
     | some r => if r ≠ 0 ∧ ¬ (0 ≤ r ∧ r ≤ 5) then [VWarn.ratingOutOfRange e.1]
                 else []
     | none => []))

/-- Embedding of `_validate_orders` (data_validator.py lines 165-180); in
the normalized shape `id` and the `user_id` key are always present. -/
def validateOrders (orders : List OrderRow) : List VErr × List VWarn :=
  (orders.enum.flatMap fun e =>
    match e.2.total with
    | some t => if t ≠ 0 ∧ t < 0 then [VErr.negativeTotal e.1] else []
    | none => [],
   [])

/-- Embedding of `_validate_order_items` (data_validator.py lines 182-198);
the required keys are always present in the normalized shape, and the
quantity check fires only on truthy values. -/
def validateOrderItems (items : List OrderItem) : List VErr × List VWarn :=
  (items.enum.flatMap fun e =>
    match e.2.quantity with
    | some q => if q ≠ 0 ∧ q ≤ 0 then [VErr.invalidQuantity e.1] else []
    | none => [],
   [])

/-- Embedding of `_validate_addresses` (data_validator.py lines 200-210);
`id` is always present, and the city/state warning fires when both are falsy
(empty strings). -/
def validateAddresses (addresses : List Address) : List VErr × List VWarn :=
  ([],
   addresses.enum.flatMap fun e =>
    if e.2.city = "" ∧ e.2.state = "" then [VWarn.missingCityState e.1] else [])

/-- Processed data directory as seen by the validator: `none` models an
absent file. -/
structure ProcessedDir where
  users : Option (List UserRow)
  addresses : Option (List Address)
  banks : Option (List Bank)
  companies : Option (List Company)
  categories : Option (List Category)
  products : Option (List ProductRow)
  product_tags : Option (List ProductTag)
  product_images : Option (List ProductImage)
  reviews : Option (List Review)
  orders : Option (List OrderRow)
  order_items : Option (List OrderItem)

/-- One iteration of the file loop of `validate_all_files` (data_validator.py
lines 54-72) combined with `_validate_file` (lines 87-104): an absent file is
an error, an empty file only a warning (skipping the per-table checks). -/
def validateFileStep {α : Type} (file : String) (contents : Option (List α))
    (vf : List α → List VErr × List VWarn) : List VErr × List VWarn :=
  match contents with
  | none => ([VErr.fileNotFound file], [])
  | some data => if data.isEmpty then ([], [VWarn.emptyFile file]) else vf data

/-- Structured validation report: the error and warning lists (the Python
dict-of-lists, linearized in file order) and the overall flag.  `passed` is
`len(self.errors) == 0`; a key exists in that dict exactly when a message was
appended under it, so key count zero coincides with message count zero. -/
structure ValidationResult where
  errors : List VErr
  warnings : List VWarn
  passed : Bool
deriving Repr, DecidableEq

/-- Embedding of `DataValidator.validate_all_files` (data_validator.py lines
25-85): the eleven expected files in source order, then the referential
integrity check — whose own `_load_json` raises on an absent file, caught and
recorded as a single `Error checking FK` entry. -/
def validateAllFiles (d : ProcessedDir) : ValidationResult :=
  let s1 := validateFileStep "users.json" d.users validateUsers
  let s2 := validateFileStep "addresses.json" d.addresses validateAddresses
  let s3 := validateFileStep "banks.json" d.banks fun _ => ([], [])
  let s4 := validateFileStep "companies.json" d.companies fun _ => ([], [])
  let s5 := validateFileStep "categories.json" d.categories fun _ => ([], [])
  let s6 := validateFileStep "products.json" d.products validateProducts
  let s7 := validateFileStep "product_tags.json" d.product_tags fun _ => ([], [])
  let s8 := validateFileStep "product_images.json" d.product_images
    fun _ => ([], [])
  let s9 := validateFileStep "reviews.json" d.reviews fun _ => ([], [])
  let s10 := validateFileStep "orders.json" d.orders validateOrders
  let s11 := validateFileStep "order_items.json" d.order_items
    validateOrderItems
  let ri : List VErr :=
    match d.users, d.products, d.orders, d.order_items, d.addresses,
        d.categories with
    | some us, some ps, some os, some its, some ads, some cs =>
        (validateReferentialIntegrity us ps os its ads cs).map VErr.fkViolation
    | _, _, _, _, _, _ => [VErr.fkCheckFailed]
  let errors := s1.1 ++ s2.1 ++ s3.1 ++ s4.1 ++ s5.1 ++ s6.1 ++ s7.1 ++
    s8.1 ++ s9.1 ++ s10.1 ++ s11.1 ++ ri
  let warnings := s1.2 ++ s2.2 ++ s3.2 ++ s4.2 ++ s5.2 ++ s6.2 ++ s7.2 ++
    s8.2 ++ s9.2 ++ s10.2 ++ s11.2
  { errors := errors, warnings := warnings, passed := errors.isEmpty }

/-! Small concrete datasets used for counterexamples and witnesses. -/

/-- Sample normalized user address. -/
def addrA : Address :=
  ⟨1, "123 Main St", "Springfield", "Illinois", "IL", "62701", "United States",
   some 1, some 2⟩

/-- Sample normalized company address. -/
def addrB : Address :=
  ⟨2, "9 Office Park", "Chicago", "Illinois", "IL", "60601", "United States",
   none, none⟩

/-- Sample normalized bank row. -/
def bank1 : Bank := ⟨1, some "1234", some "Visa", some "01/30", some "USD", some "IB01"⟩

/-- Sample normalized company row, whose own address is `addrB`. -/
def comp1 : Company := ⟨1, "Acme", some "Sales", some "Manager", some 2⟩

/-- Sample normalized user with resolvable address, bank and company. -/
def userFull : UserRow :=
  { id := 7, first_name := some "Ann", last_name := some "Lee",
    maiden_name := none, age := some 30, gender := none,
    email := some "ann@example.com", phone := none, username := some "ann",
    password := none, birth_date := none, image_url := none,
    blood_group := none, height := none, weight := none, eye_color := none,
    hair_color := none, hair_type := none, ip_address := none,
    mac_address := none, user_agent := none, university := none, ein := none,
    ssn := none, role := "user", crypto_coin := none, crypto_wallet := none,
    crypto_network := none, bank_id := some 1, company_id := some 1,
    address_id := some 1 }

/-- Sample normalized user with no bank. -/
def userNoBank : UserRow := { userFull with id := 8, bank_id := none }

/-- Sample normalized user whose non-null `bank_id` matches no bank row. -/
def userDanglingBank : UserRow := { userFull with id := 10, bank_id := some 99 }

/-- Sample normalized table set for the document-embedding claims. -/
def tablesMongo : Tables :=
  { addresses := [addrA, addrB], banks := [bank1], companies := [comp1],
    categories := [], users := [userFull, userNoBank, userDanglingBank],
    products := [], product_tags := [], product_images := [], reviews := [],
    orders := [], order_items := [] }

/-- Sample normalized product row with id 5. -/
def prodSample : ProductRow :=
  { id := 5, title := some "Phone", description := none, category_id := 1,
    price := none, discount_percentage := none, rating := none, stock := none,
    brand := none, sku := none, weight := none, width := none, height := none,
    depth := none, warranty_info := none, shipping_info := none,
    availability_status := none, return_policy := none,
    minimum_order_quantity := none, barcode := none, qr_code_url := none,
    thumbnail_url := some "t.png", created_at := none, updated_at := none }

/-- Order item whose `product_id` resolves to `prodSample`. -/
def itemGood : OrderItem := ⟨1, 1, some 5, some 2, some 10, some 0, none, none⟩

/-- Order item whose `product_id` (99) matches no product row. -/
def itemDangling : OrderItem := ⟨2, 1, some 99, some 1, some 5, some 0, none, none⟩

/-- Sample normalized order owning both items above. -/
def orderSample : OrderRow :=
  ⟨1, some 7, none, "2025-01-01T12:00:00", "completed", none, none, none⟩

/-- Sample table set for the order-document claim: one order with one
resolvable and one dangling line item. -/
def tablesOrders : Tables :=
  { addresses := [], banks := [], companies := [], categories := [],
    users := [], products := [prodSample], product_tags := [],
    product_images := [], reviews := [], orders := [orderSample],
    order_items := [itemGood, itemDangling] }

/-- Order whose `user_id` is the non-null but falsy value 0. -/
def orderZeroUser : OrderRow :=
  ⟨1, some 0, none, "2025-01-01T00:00:00", "completed", none, none, none⟩

/-- User with a malformed (no `@`) but truthy email. -/
def userBadEmail : UserRow :=
  { userFull with
      id := 9
      email := some "ann.example.com"
      address_id := none
      bank_id := none
      company_id := none }

/-- Product with a negative price and a falsy (zero) `category_id`. -/
def prodNegPrice : ProductRow :=
  { prodSample with id := 6, price := some (-5), category_id := 0 }

/-- Processed directory producing only warnings (a malformed email and empty
files). -/
def dirWarnOnly : ProcessedDir :=
  { users := some [userBadEmail], addresses := some [], banks := some [],
    companies := some [], categories := some [], products := some [],
    product_tags := some [], product_images := some [], reviews := some [],
    orders := some [], order_items := some [] }

/-- Processed directory with a field-level error (negative price). -/
def dirWithError : ProcessedDir :=
  { dirWarnOnly with users := some [], products := some [prodNegPrice] }

/-- Concrete order item with unit price `1/8 = 0.125`, quantity 1, discount 0,
used to refute the claim `subtotal = unit_price * quantity`. -/
def itemEighth : OrderItem :=
  { id := 1, order_id := 1, product_id := some 1, quantity := some 1,
    price := some (1 / 8), discount_percentage := some 0,
    discounted_total := none, total := none }

/-- The claim C1 is false as stated: for unit price `0.125`, quantity 1, the
stored `subtotal` field is `round(0.125, 2) = 0.12`, not `p * q = 0.125` —
the code rounds the subtotal to two decimals before storing it. -/
theorem fact_monetary_counterexample :
    (mkStarFactRecord 1 (some 1) 1 none "completed" itemEighth).subtotal = 3 / 25 ∧
      ((1 : ℚ) / 8) * ((1 : ℤ) : ℚ) ≠ 3 / 25 := by
  refine ⟨?_, by norm_num⟩
  norm_num [mkStarFactRecord, itemEighth, pyRound2, pyRoundHalfEven]

/-- C1 (amended): for every fact row produced by the star and snowflake fact
builders from an order item with unit price `p`, quantity `q` and discount
percentage `d`, the stored monetary fields are `subtotal = round(p*q, 2)`,
`discount_amount = round(p*q*d/100, 2)` and
`total_amount = round(p*q - p*q*d/100, 2)` (the unrounded discount is
subtracted, and the subtotal is rounded on storage); both builders agree, and
for `p = 10, q = 3, d = 10` the row has `subtotal = 30`,
`discount_amount = 3`, `total_amount = 27`. -/
theorem fact_monetary_formulas :
    (∀ (p : ℚ) (q : ℤ) (d : ℚ) (oid : ℤ) (uid : Option ℤ) (did : ℤ)
       (lid : Option ℤ) (status : String) (iid ioid : ℤ) (pid : Option ℤ)
       (dtot tot : Option ℚ),
      let item : OrderItem := ⟨iid, ioid, pid, some q, some p, some d, dtot, tot⟩
      let r := mkStarFactRecord oid uid did lid status item
      let s := mkSnowFactRecord oid uid did status item
      r.subtotal = pyRound2 (p * q) ∧
      r.discount_amount = pyRound2 (p * q * (d / 100)) ∧
      r.total_amount = pyRound2 (p * q - p * q * (d / 100)) ∧
      s.subtotal = r.subtotal ∧ s.discount_amount = r.discount_amount ∧
      s.total_amount = r.total_amount) ∧
    (let r := mkStarFactRecord 1 (some 1) 1 none "completed"
        ⟨1, 1, some 1, some 3, some 10, some 10, none, none⟩
     r.subtotal = 30 ∧ r.discount_amount = 3 ∧ r.total_amount = 27) := by
  constructor
  · intro p q d oid uid did lid status iid ioid pid dtot tot
    exact ⟨rfl, rfl, rfl, rfl, rfl, rfl⟩
  · refine ⟨?_, ?_, ?_⟩ <;>
      norm_num [mkStarFactRecord, pyRound2, pyRoundHalfEven]

/-! Association-list lemmas used to reason about the Python dict caches. -/

theorem alistFind_append_of_none {α β : Type} [DecidableEq α] :
    ∀ {l₁ : List (α × β)} {k : α} (l₂ : List (α × β)),
      alistFind l₁ k = none → alistFind (l₁ ++ l₂) k = alistFind l₂ k := by
  intro l₁
  induction l₁ with
  | nil => intro k l₂ _; rfl
  | cons e tl ih =>
      intro k l₂ h
      obtain ⟨k₀, v⟩ := e
      by_cases hk : k = k₀
      · simp [alistFind, hk] at h
      · rw [List.cons_append]
        simpa [alistFind, hk] using ih l₂ (by simpa [alistFind, hk] using h)

theorem alistFind_append_of_some {α β : Type} [DecidableEq α] :
    ∀ {l₁ : List (α × β)} {k : α} {v : β} (l₂ : List (α × β)),
      alistFind l₁ k = some v → alistFind (l₁ ++ l₂) k = some v := by
  intro l₁
  induction l₁ with
  | nil => intro k v l₂ h; exact absurd h (by simp [alistFind])
  | cons e tl ih =>
      intro k v l₂ h
      obtain ⟨k₀, w⟩ := e
      by_cases hk : k = k₀
      · simp [alistFind, hk] at h ⊢; exact h
      · rw [List.cons_append]
        simpa [alistFind, hk] using ih l₂ (by simpa [alistFind, hk] using h)

theorem alistFind_mem {α β : Type} [DecidableEq α] :
    ∀ {l : List (α × β)} {k : α} {v : β},
      alistFind l k = some v → (k, v) ∈ l := by
  intro l
  induction l with
  | nil => intro k v h; exact absurd h (by simp [alistFind])
  | cons e tl ih =>
      intro k v h
      obtain ⟨k₀, w⟩ := e
      by_cases hk : k = k₀
      · simp [alistFind, hk] at h
        exact hk ▸ h ▸ List.mem_cons_self _ _
      · exact List.mem_cons_of_mem _ (ih (by simpa [alistFind, hk] using h))

theorem alistFind_none_not_mem {α β : Type} [DecidableEq α] :
    ∀ {l : List (α × β)} {k : α},
      alistFind l k = none → k ∉ l.map Prod.fst := by
  intro l
  induction l with
  | nil => intro k _; simp
  | cons e tl ih =>
      intro k h
      obtain ⟨k₀, w⟩ := e
      by_cases hk : k = k₀
      · simp [alistFind, hk] at h
      · simpa [hk] using ih (by simpa [alistFind, hk] using h)

/-! Lemmas about the category cache of the normalization engine. -/

theorem goc_cache_extends (st : NormState) (cat : Option String) :
    ∃ ext, (getOrCreateCategory st cat).1.category_cache =
      st.category_cache ++ ext := by
  unfold getOrCreateCategory
  cases h : alistFind st.category_cache (slugify (cat.getD "uncategorized")) with
  | none => exact ⟨_, rfl⟩
  | some row => exact ⟨[], by simp⟩

theorem goc_find_stable {st : NormState} {cat : Option String} {s : String}
    {c : Category} (h : alistFind st.category_cache s = some c) :
    alistFind (getOrCreateCategory st cat).1.category_cache s = some c := by
  obtain ⟨ext, he⟩ := goc_cache_extends st cat
  rw [he]
  exact alistFind_append_of_some ext h

theorem goc_find_self (st : NormState) (cat : Option String) (hwf : CacheWF st) :
    ∃ c : Category,
      alistFind (getOrCreateCategory st cat).1.category_cache
          (slugify (cat.getD "uncategorized")) = some c ∧
        (getOrCreateCategory st cat).2 = c.id ∧
        c.slug = slugify (cat.getD "uncategorized") := by
  unfold getOrCreateCategory
  cases h : alistFind st.category_cache (slugify (cat.getD "uncategorized")) with
  | none =>
      refine ⟨⟨st.category_id, cat.getD "uncategorized",
        slugify (cat.getD "uncategorized")⟩, ?_, rfl, rfl⟩
      rw [alistFind_append_of_none _ h]
      simp [alistFind]
  | some row =>
      exact ⟨row, h, rfl, hwf.2 (_, row) (alistFind_mem h)⟩

theorem goc_wf (st : NormState) (cat : Option String) (hwf : CacheWF st) :
    CacheWF (getOrCreateCategory st cat).1 := by
  unfold getOrCreateCategory
  cases h : alistFind st.category_cache (slugify (cat.getD "uncategorized")) with
  | some row => exact hwf
  | none =>
      refine ⟨?_, ?_⟩
      · have hk := alistFind_none_not_mem h
        simpa [List.nodup_append, hwf.1] using hk
      · intro e he
        rcases List.mem_append.mp he with h1 | h2
        · exact hwf.2 e h1
        · simp only [List.mem_singleton] at h2
          subst h2
          rfl

theorem goc_mem_cache (st : NormState) (cat : Option String) :
    ∀ e ∈ (getOrCreateCategory st cat).1.category_cache,
      e ∈ st.category_cache ∨ e.2.slug = slugify (cat.getD "uncategorized") := by
  unfold getOrCreateCategory
  cases h : alistFind st.category_cache (slugify (cat.getD "uncategorized")) with
  | some row => exact fun e he => Or.inl he
  | none =>
      intro e he
      rcases List.mem_append.mp he with h1 | h2
      · exact Or.inl h1
      · simp only [List.mem_singleton] at h2
        subst h2
        exact Or.inr rfl

theorem normalizeProduct_cache (st : NormState) (p : RawProduct) :
    (normalizeProduct st p).1.category_cache =
      (getOrCreateCategory st p.category).1.category_cache := rfl

theorem normalizeProduct_category_id (st : NormState) (p : RawProduct) :
    (normalizeProduct st p).2.product.category_id =
      (getOrCreateCategory st p.category).2 := rfl

theorem cacheWF_of_eq {s₁ s₂ : NormState}
    (h : s₁.category_cache = s₂.category_cache) (hwf : CacheWF s₁) :
    CacheWF s₂ := by
  rw [CacheWF, ← h]
  exact hwf

theorem npl_length (st : NormState) (ps : List RawProduct) :
    (normalizeProductsList st ps).2.length = ps.length := by
  induction ps generalizing st with
  | nil => rfl
  | cons p rest ih => simp [normalizeProductsList, ih]

theorem npl_find_stable (st : NormState) (ps : List RawProduct) {s : String}
    {c : Category} (h : alistFind st.category_cache s = some c) :
    alistFind (normalizeProductsList st ps).1.category_cache s = some c := by
  induction ps generalizing st with
  | nil => exact h
  | cons p rest ih =>
      simp only [normalizeProductsList]
      exact ih _ (by rw [normalizeProduct_cache]; exact goc_find_stable h)

theorem npl_wf (st : NormState) (ps : List RawProduct) (hwf : CacheWF st) :
    CacheWF (normalizeProductsList st ps).1 := by
  induction ps generalizing st with
  | nil => exact hwf
  | cons p rest ih =>
      simp only [normalizeProductsList]
      exact ih _ (cacheWF_of_eq (normalizeProduct_cache st p).symm
        (goc_wf st p.category hwf))

theorem npl_zip_spec (st : NormState) (ps : List RawProduct) (hwf : CacheWF st) :
    ∀ pr ∈ ps.zip (normalizeProductsList st ps).2,
      ∃ c : Category,
        alistFind (normalizeProductsList st ps).1.category_cache
            (rawSlug pr.1) = some c ∧
          pr.2.product.category_id = c.id ∧ c.slug = rawSlug pr.1 := by
  induction ps generalizing st with
  | nil => intro pr hpr; simp [normalizeProductsList] at hpr
  | cons p rest ih =>
      intro pr hpr
      simp only [normalizeProductsList, List.zip_cons_cons, List.mem_cons] at hpr
      rcases hpr with rfl | hpr
      · obtain ⟨c, hfind, hid, hslug⟩ := goc_find_self st p.category hwf
        refine ⟨c, ?_, ?_, hslug⟩
        · simp only [normalizeProductsList]
          exact npl_find_stable _ rest (by rw [normalizeProduct_cache]; exact hfind)
        · rw [normalizeProduct_category_id]; exact hid
      · have hwf1 : CacheWF (normalizeProduct st p).1 :=
          cacheWF_of_eq (normalizeProduct_cache st p).symm (goc_wf st p.category hwf)
        obtain ⟨c, hfind, hid, hslug⟩ := ih (normalizeProduct st p).1 hwf1 pr hpr
        exact ⟨c, by simpa only [normalizeProductsList] using hfind, hid, hslug⟩

theorem npl_mem_cache (st : NormState) (ps : List RawProduct) :
    ∀ e ∈ (normalizeProductsList st ps).1.category_cache,
      e ∈ st.category_cache ∨ ∃ p ∈ ps, e.2.slug = rawSlug p := by
  induction ps generalizing st with
  | nil => intro e he; exact Or.inl he
  | cons p rest ih =>
      intro e he
      simp only [normalizeProductsList] at he
      rcases ih _ e he with h1 | ⟨q, hq, hs⟩
      · rw [normalizeProduct_cache] at h1
        rcases goc_mem_cache st p.category e h1 with h2 | h2
        · exact Or.inl h2
        · exact Or.inr ⟨p, List.mem_cons_self _ _, h2⟩
      · exact Or.inr ⟨q, List.mem_cons_of_mem _ hq, hs⟩

theorem normalizeUser_cache (st : NormState) (u : RawUser) :
    (normalizeUser st u).1.category_cache = st.category_cache := by
  unfold normalizeUser
  obtain ⟨uid, ufn, uln, umn, uage, ug, ue, uph, uun, upw, ubd, uim, ubg, uh,
    uw, uec, uhair, uip, umac, uua, uuni, uein, ussn, urole, ucr, uaddr,
    ubank, ucomp⟩ := u
  rcases uaddr with _ | a <;> rcases ubank with _ | b <;>
    rcases ucomp with _ | ⟨nm, dep, ttl, ca⟩ <;>
    first
      | rfl
      | (rcases ca with _ | ca0 <;> rfl)

theorem nul_cache (st : NormState) (us : List RawUser) :
    (normalizeUsersList st us).1.category_cache = st.category_cache := by
  induction us generalizing st with
  | nil => rfl
  | cons u rest ih =>
      simp only [normalizeUsersList]
      rw [ih, normalizeUser_cache]

/-- C2: during product normalization every category slug (name lower-cased,
spaces to hyphens) gets exactly one surrogate key, first-seen wins: the
product rows are in bijection with the raw products, the categories table has
pairwise-distinct slugs, every product row's `category_id` is the id of the
unique category row carrying its slug, two products with equal slugs get
equal `category_id`, every category row stems from some product, and for the
concrete pair "Smartphones"/"smartphones" both rows get category 1 and one
category row (named after the first occurrence) is produced. -/
theorem category_dedup :
    (∀ (users : List RawUser) (products : List RawProduct)
       (carts : List RawCart) (rnd : RandomOracle),
      let t := normalizeAllPure users products carts rnd
      t.products.length = products.length ∧
      (t.categories.map Category.slug).Nodup ∧
      (∀ pr ∈ products.zip t.products,
        ∃ c ∈ t.categories, c.slug = rawSlug pr.1 ∧ pr.2.category_id = c.id) ∧
      (∀ pr₁ ∈ products.zip t.products, ∀ pr₂ ∈ products.zip t.products,
        rawSlug pr₁.1 = rawSlug pr₂.1 →
          pr₁.2.category_id = pr₂.2.category_id) ∧
      (∀ c ∈ t.categories, ∃ p ∈ products, c.slug = rawSlug p)) ∧
    (let t := normalizeAllPure []
        [rawProductOfCategory (some "Smartphones"),
         rawProductOfCategory (some "smartphones")] [] oracle0
     t.categories = [⟨1, "Smartphones", "smartphones"⟩] ∧
     t.products.map ProductRow.category_id = [1, 1]) := by
  constructor
  · intro users products carts rnd
    intro t
    have hwf0 : CacheWF (normalizeUsersList initNormState users).1 := by
      refine cacheWF_of_eq ?_
        (⟨by simp [initNormState], by simp [initNormState]⟩ : CacheWF initNormState)
      exact (nul_cache initNormState users).symm
    have hcat : t.categories =
        (normalizeProductsList (normalizeUsersList initNormState users).1
          products).1.category_cache.map Prod.snd := rfl
    have hprod : t.products =
        (normalizeProductsList (normalizeUsersList initNormState users).1
          products).2.map ProductParts.product := rfl
    have hwfF := npl_wf (normalizeUsersList initNormState users).1 products hwf0
    have hzip : ∀ pr ∈ products.zip t.products,
        ∃ c : Category,
          alistFind (normalizeProductsList
              (normalizeUsersList initNormState users).1
              products).1.category_cache (rawSlug pr.1) = some c ∧
            pr.2.category_id = c.id ∧ c.slug = rawSlug pr.1 := by
      intro pr hpr
      rw [hprod, List.zip_map_right, List.mem_map] at hpr
      obtain ⟨q, hq, rfl⟩ := hpr
      obtain ⟨c, hfind, hid, hslug⟩ :=
        npl_zip_spec (normalizeUsersList initNormState users).1 products hwf0 q hq
      exact ⟨c, hfind, hid, hslug⟩
    refine ⟨?_, ?_, ?_, ?_, ?_⟩
    · rw [hprod, List.length_map, npl_length]
    · have hmapeq : t.categories.map Category.slug =
          (normalizeProductsList (normalizeUsersList initNormState users).1
            products).1.category_cache.map Prod.fst := by
        rw [hcat, List.map_map]
        exact List.map_congr_left fun e he => hwfF.2 e he
      rw [hmapeq]
      exact hwfF.1
    · intro pr hpr
      obtain ⟨c, hfind, hid, hslug⟩ := hzip pr hpr
      refine ⟨c, ?_, hslug, hid⟩
      rw [hcat]
      exact List.mem_map_of_mem Prod.snd (alistFind_mem hfind)
    · intro pr₁ hpr₁ pr₂ hpr₂ hs
      obtain ⟨c₁, hfind₁, hid₁, _⟩ := hzip pr₁ hpr₁
      obtain ⟨c₂, hfind₂, hid₂, _⟩ := hzip pr₂ hpr₂
      rw [hs, hfind₂] at hfind₁
      rw [hid₁, hid₂, Option.some_inj.mp hfind₁]
    · intro c hc
      rw [hcat, List.mem_map] at hc
      obtain ⟨e, he, rfl⟩ := hc
      rcases npl_mem_cache (normalizeUsersList initNormState users).1 products
          e he with h1 | h2
      · rw [nul_cache] at h1
        exact absurd h1 (List.not_mem_nil e)
      · exact h2
  · exact ⟨by decide, by decide⟩

/-- The claim C4 is false as stated: with the `users.json` raw collection
absent (and the other two present), `normalize_all` raises
`FileNotFoundError` instead of proceeding with an empty collection — its
`_load_json` opens the file with no existence check. -/
theorem missing_source_counterexample :
    normalizeAll ⟨none, some [], some []⟩ oracle0 = .error "FileNotFoundError" := rfl

/-- C4 (amended): the normalization engine aborts with `FileNotFoundError`
when any of the three raw collections (users, products, carts) is absent —
it raises if and only if one of them is missing; it is the schema and
document loaders whose `_load_json` treats an absent processed file as an
empty collection and proceeds. -/
theorem missing_source_behavior :
    (∀ (dir : RawDir) (rnd : RandomOracle),
      (∃ e, normalizeAll dir rnd = .error e) ↔
        dir.users = none ∨ dir.products = none ∨ dir.carts = none) ∧
    (∀ (α : Type), loaderLoadJson (α := α) none = []) := by
  constructor
  · intro dir rnd
    obtain ⟨us, ps, cs⟩ := dir
    constructor
    · rintro ⟨e, he⟩
      rcases us with _ | us
      · exact Or.inl rfl
      rcases ps with _ | ps
      · exact Or.inr (Or.inl rfl)
      rcases cs with _ | cs
      · exact Or.inr (Or.inr rfl)
      have hok : normalizeAll ⟨some us, some ps, some cs⟩ rnd =
          .ok (normalizeAllPure us ps cs rnd) := rfl
      rw [hok] at he
      simp at he
    · rintro (h | h | h)
      · simp only at h
        subst h
        exact ⟨"FileNotFoundError", rfl⟩
      · simp only at h
        subst h
        rcases us with _ | us <;> exact ⟨"FileNotFoundError", rfl⟩
      · simp only at h
        subst h
        rcases us with _ | us <;> rcases ps with _ | ps <;>
          exact ⟨"FileNotFoundError", rfl⟩
  · intro α
    rfl

/-- Closed instance of the amended C4 theorem at a concrete directory with
`users.json` absent. -/
theorem missing_source_behavior_witness :
    ∃ e, normalizeAll ⟨none, some [], some []⟩ oracle0 = .error e :=
  (missing_source_behavior.1 ⟨none, some [], some []⟩ oracle0).2 (Or.inl rfl)

/-- C7: for every normalized user whose `address_id`, `bank_id` and
`company_id` (and the company's own `address_id`) resolve in the normalized
set, the produced document embeds `address`, `bank` and `company.address`
sub-objects with exactly the rows' field values; and a user whose `bank_id`
does not resolve in the banks dict — because it is null or because it is
dangling — gets no `bank` key at all. -/
theorem document_embedding :
    (∀ (d : Tables) (u : UserRow) (a : Address) (b : Bank) (c : Company)
       (ca : Address),
      u ∈ d.users →
      u.address_id.bind (pyDictOfList Address.id d.addresses) = some a →
      u.bank_id.bind (pyDictOfList Bank.id d.banks) = some b →
      u.company_id.bind (pyDictOfList Company.id d.companies) = some c →
      c.address_id.bind (pyDictOfList Address.id d.addresses) = some ca →
      denormUser d.addresses d.banks d.companies u ∈ denormalizeUsers d ∧
      (denormUser d.addresses d.banks d.companies u).address =
        some ⟨a.address_line, a.city, a.state, a.state_code, a.postal_code,
              a.country, ⟨a.latitude, a.longitude⟩⟩ ∧
      (denormUser d.addresses d.banks d.companies u).bank =
        some ⟨b.card_number, b.card_type, b.card_expire, b.currency, b.iban⟩ ∧
      (denormUser d.addresses d.banks d.companies u).company =
        some ⟨c.name, c.department, c.title,
              some ⟨ca.address_line, ca.city, ca.state, ca.state_code,
                    ca.postal_code, ca.country,
                    ⟨ca.latitude, ca.longitude⟩⟩⟩) ∧
    (∀ (d : Tables) (u : UserRow), u ∈ d.users →
      u.bank_id.bind (pyDictOfList Bank.id d.banks) = none →
      (denormUser d.addresses d.banks d.companies u).bank = none) := by
  constructor
  · intro d u a b c ca hu ha hb hc hca
    refine ⟨List.mem_map_of_mem _ hu, ?_, ?_, ?_⟩
    · simp [denormUser, ha, mkAddressDoc]
    · simp [denormUser, hb, mkBankDoc]
    · show ((u.company_id.bind (pyDictOfList Company.id d.companies)).map _) = _
      rw [hc]
      show some _ = _
      refine congrArg some ?_
      show (⟨c.name, c.department, c.title,
        (c.address_id.bind (pyDictOfList Address.id d.addresses)).map
          mkAddressDoc⟩ : CompanyDoc) = _
      rw [hca]
      simp [mkAddressDoc]
  · intro d u _ hbank
    show (u.bank_id.bind (pyDictOfList Bank.id d.banks)).map mkBankDoc = none
    rw [hbank]
    rfl

/-- Closed instance of C7 at the concrete table set: the full user's
document embeds the sample address, while both the bank-less user and the
user with a dangling `bank_id` get documents without a bank key. -/
theorem document_embedding_witness :
    (denormUser tablesMongo.addresses tablesMongo.banks tablesMongo.companies
        userFull).address =
      some ⟨"123 Main St", "Springfield", "Illinois", "IL", "62701",
            "United States", ⟨some 1, some 2⟩⟩ ∧
    (denormUser tablesMongo.addresses tablesMongo.banks tablesMongo.companies
        userNoBank).bank = none ∧
    (denormUser tablesMongo.addresses tablesMongo.banks tablesMongo.companies
        userDanglingBank).bank = none := by
  refine ⟨?_, ?_, ?_⟩
  · have h := (document_embedding.1 tablesMongo userFull addrA bank1 comp1
      addrB (by decide) (by decide) (by decide) (by decide) (by decide)).2.1
    simpa [addrA] using h
  · exact document_embedding.2 tablesMongo userNoBank (by decide) (by decide)
  · exact document_embedding.2 tablesMongo userDanglingBank (by decide)
      (by decide)

/-! Lemmas for the order-document projection. -/

theorem pyDictOfList_mem {α β : Type} [DecidableEq α] (key : β → α)
    (rows : List β) (k : α) (r : β) (h : pyDictOfList key rows k = some r) :
    r ∈ rows ∧ key r = k := by
  suffices haux : ∀ (init : Option β) (rs : List β),
      rs.foldl (fun acc x => if key x = k then some x else acc) init = some r →
      init = some r ∨ (r ∈ rs ∧ key r = k) by
    rcases haux none rows h with h1 | h2
    · exact absurd h1 (by simp)
    · exact h2
  intro init rs
  induction rs generalizing init with
  | nil => intro h0; exact Or.inl h0
  | cons x tl ih =>
      intro h0
      rcases ih _ h0 with h1 | h2
      · dsimp only at h1
        by_cases hx : key x = k
        · rw [if_pos hx] at h1
          have hxr : x = r := Option.some_inj.mp h1
          subst hxr
          exact Or.inr ⟨List.mem_cons_self _ _, hx⟩
        · rw [if_neg hx] at h1
          exact Or.inl h1
      · exact Or.inr ⟨List.mem_cons_of_mem _ h2.1, h2.2⟩

theorem length_filterMap_eq_filter_isSome {α β : Type} (f : α → Option β) :
    ∀ l : List α,
      (l.filterMap f).length = (l.filter fun a => (f a).isSome).length := by
  intro l
  induction l with
  | nil => rfl
  | cons x tl ih =>
      cases hx : f x <;>
        simp [List.filterMap_cons, List.filter_cons, hx, ih]

theorem mkOrderItemDoc_isSome (products : List ProductRow)
    (categories : List Category) (item : OrderItem) :
    (mkOrderItemDoc products categories item).isSome =
      (item.product_id.bind (pyDictOfList ProductRow.id products)).isSome := by
  unfold mkOrderItemDoc
  cases h : item.product_id.bind (pyDictOfList ProductRow.id products) <;> simp

theorem mkOrderItemDoc_some {products : List ProductRow}
    {categories : List Category} {item : OrderItem} {docItem : OrderItemDoc}
    (h : mkOrderItemDoc products categories item = some docItem) :
    ∃ p : ProductRow,
      item.product_id.bind (pyDictOfList ProductRow.id products) = some p ∧
        docItem.product_id = p.id ∧ docItem.title = p.title ∧
        docItem.thumbnail = p.thumbnail_url := by
  unfold mkOrderItemDoc at h
  cases hp : item.product_id.bind (pyDictOfList ProductRow.id products) with
  | none => rw [hp] at h; exact absurd h (by simp)
  | some p =>
      rw [hp] at h
      simp only [Option.some_inj] at h
      exact ⟨p, rfl, by rw [← h], by rw [← h], by rw [← h]⟩

/-- C10: when building order documents, an order item whose `product_id`
does not resolve in the products dict is silently omitted: each document's
items are exactly the resolvable line items of the order (so the list can be
shorter than the order's normalized items), every embedded item carries the
fields of an existing product row, and in the concrete set with one
resolvable and one dangling item the document embeds a single item. -/
theorem order_items_dropped :
    (∀ (d : Tables), ∀ o ∈ d.orders,
      denormOrder d.users d.products d.categories d.order_items o ∈
          denormalizeOrders d ∧
      (denormOrder d.users d.products d.categories d.order_items o).items.length =
        ((itemsByOrder d.order_items o.id).filter fun it =>
          (it.product_id.bind (pyDictOfList ProductRow.id d.products)).isSome).length ∧
      (denormOrder d.users d.products d.categories d.order_items o).items.length ≤
        (itemsByOrder d.order_items o.id).length ∧
      ∀ itemDoc ∈
          (denormOrder d.users d.products d.categories d.order_items o).items,
        ∃ p ∈ d.products, itemDoc.product_id = p.id ∧ itemDoc.title = p.title ∧
          itemDoc.thumbnail = p.thumbnail_url) ∧
    ((denormOrder tablesOrders.users tablesOrders.products
        tablesOrders.categories tablesOrders.order_items
        orderSample).items.length = 1 ∧
      (itemsByOrder tablesOrders.order_items orderSample.id).length = 2) := by
  constructor
  · intro d o ho
    have hitems : (denormOrder d.users d.products d.categories
        d.order_items o).items =
        (itemsByOrder d.order_items o.id).filterMap
          (mkOrderItemDoc d.products d.categories) := rfl
    refine ⟨List.mem_map_of_mem _ ho, ?_, ?_, ?_⟩
    · rw [hitems, length_filterMap_eq_filter_isSome]
      congr 1
      exact List.filter_congr fun it _ =>
        mkOrderItemDoc_isSome d.products d.categories it
    · rw [hitems]
      exact List.length_filterMap_le _ _
    · intro itemDoc hmem
      simp only [denormOrder, List.mem_filterMap] at hmem
      obtain ⟨item, _, hsome⟩ := hmem
      obtain ⟨p, hbind, hpid, htitle, hthumb⟩ := mkOrderItemDoc_some hsome
      cases hid : item.product_id with
      | none => rw [hid] at hbind; exact absurd hbind (by simp)
      | some pid =>
          rw [hid] at hbind
          simp only [Option.some_bind] at hbind
          exact ⟨p, (pyDictOfList_mem ProductRow.id d.products pid p hbind).1,
            hpid, htitle, hthumb⟩
  · exact ⟨by decide, by decide⟩

/-- Closed instance of C10 at the concrete tables: applying the theorem to
the sample order shows its embedded item count is bounded by its normalized
item count. -/
theorem order_items_dropped_witness :
    (denormOrder tablesOrders.users tablesOrders.products
        tablesOrders.categories tablesOrders.order_items
        orderSample).items.length ≤
      (itemsByOrder tablesOrders.order_items orderSample.id).length :=
  (order_items_dropped.1 tablesOrders orderSample (by decide)).2.2.1

/-! Lemmas for the referential-integrity check. -/

theorem mem_filterMap_tag {α : Type} (f : α → Option RIError) (l : List α)
    (k : ℕ) (hf : ∀ a e0, f a = some e0 → RIError.tag e0 = k) {e : RIError}
    (he : e ∈ l.filterMap f) : RIError.tag e = k := by
  obtain ⟨a, _, hs⟩ := List.mem_filterMap.mp he
  exact hf a e hs

theorem checkOrderUser_tag (uids : List ℤ) (o : OrderRow) (e : RIError)
    (h : checkOrderUser uids o = some e) : RIError.tag e = 0 := by
  unfold checkOrderUser at h
  cases huid : o.user_id with
  | none => rw [huid] at h; cases h
  | some w =>
      rw [huid] at h
      dsimp only at h
      by_cases hw : w ≠ 0 ∧ w ∉ uids
      · rw [if_pos hw] at h; rw [← Option.some_inj.mp h]; rfl
      · rw [if_neg hw] at h; cases h

theorem checkItemOrder_tag (oids : List ℤ) (it : OrderItem) (e : RIError)
    (h : checkItemOrder oids it = some e) : RIError.tag e = 1 := by
  unfold checkItemOrder at h
  by_cases hw : it.order_id ≠ 0 ∧ it.order_id ∉ oids
  · rw [if_pos hw] at h; rw [← Option.some_inj.mp h]; rfl
  · rw [if_neg hw] at h; cases h

theorem checkItemProduct_tag (pids : List ℤ) (it : OrderItem) (e : RIError)
    (h : checkItemProduct pids it = some e) : RIError.tag e = 2 := by
  unfold checkItemProduct at h
  cases hp : it.product_id with
  | none => rw [hp] at h; cases h
  | some w =>
      rw [hp] at h
      dsimp only at h
      by_cases hw : w ≠ 0 ∧ w ∉ pids
      · rw [if_pos hw] at h; rw [← Option.some_inj.mp h]; rfl
      · rw [if_neg hw] at h; cases h

theorem checkUserAddress_tag (aids : List ℤ) (u : UserRow) (e : RIError)
    (h : checkUserAddress aids u = some e) : RIError.tag e = 3 := by
  unfold checkUserAddress at h
  cases ha : u.address_id with
  | none => rw [ha] at h; cases h
  | some w =>
      rw [ha] at h
      dsimp only at h
      by_cases hw : w ≠ 0 ∧ w ∉ aids
      · rw [if_pos hw] at h; rw [← Option.some_inj.mp h]; rfl
      · rw [if_neg hw] at h; cases h

theorem checkProductCategory_tag (cids : List ℤ) (p : ProductRow) (e : RIError)
    (h : checkProductCategory cids p = some e) : RIError.tag e = 4 := by
  unfold checkProductCategory at h
  by_cases hw : p.category_id ≠ 0 ∧ p.category_id ∉ cids
  · rw [if_pos hw] at h; rw [← Option.some_inj.mp h]; rfl
  · rw [if_neg hw] at h; cases h

theorem checkOrderUser_mem_iff {uids : List ℤ} {orders : List OrderRow}
    {oid v : ℤ} :
    RIError.orderUser oid v ∈ orders.filterMap (checkOrderUser uids) ↔
      ∃ o ∈ orders, o.id = oid ∧ o.user_id = some v ∧ v ≠ 0 ∧ v ∉ uids := by
  rw [List.mem_filterMap]
  constructor
  · rintro ⟨o, ho, hs⟩
    refine ⟨o, ho, ?_⟩
    unfold checkOrderUser at hs
    cases huid : o.user_id with
    | none => rw [huid] at hs; cases hs
    | some w =>
        rw [huid] at hs
        dsimp only at hs
        by_cases hw : w ≠ 0 ∧ w ∉ uids
        · rw [if_pos hw] at hs
          injection Option.some_inj.mp hs with h1 h2
          subst h2
          exact ⟨h1, rfl, hw.1, hw.2⟩
        · rw [if_neg hw] at hs; cases hs
  · rintro ⟨o, ho, hid, huid, hv0, hvm⟩
    refine ⟨o, ho, ?_⟩
    unfold checkOrderUser
    rw [huid]
    dsimp only
    rw [if_pos ⟨hv0, hvm⟩, hid]

theorem checkItemOrder_mem_iff {oids : List ℤ} {items : List OrderItem}
    {iid v : ℤ} :
    RIError.itemOrder iid v ∈ items.filterMap (checkItemOrder oids) ↔
      ∃ it ∈ items, it.id = iid ∧ it.order_id = v ∧ v ≠ 0 ∧ v ∉ oids := by
  rw [List.mem_filterMap]
  constructor
  · rintro ⟨it, hit, hs⟩
    refine ⟨it, hit, ?_⟩
    unfold checkItemOrder at hs
    by_cases hw : it.order_id ≠ 0 ∧ it.order_id ∉ oids
    · rw [if_pos hw] at hs
      injection Option.some_inj.mp hs with h1 h2
      subst h2
      exact ⟨h1, rfl, hw.1, hw.2⟩
    · rw [if_neg hw] at hs; cases hs
  · rintro ⟨it, hit, hid, hv, hv0, hvm⟩
    refine ⟨it, hit, ?_⟩
    unfold checkItemOrder
    subst hv
    rw [if_pos ⟨hv0, hvm⟩, hid]

theorem checkItemProduct_mem_iff {pids : List ℤ} {items : List OrderItem}
    {iid v : ℤ} :
    RIError.itemProduct iid v ∈ items.filterMap (checkItemProduct pids) ↔
      ∃ it ∈ items, it.id = iid ∧ it.product_id = some v ∧ v ≠ 0 ∧ v ∉ pids := by
  rw [List.mem_filterMap]
  constructor
  · rintro ⟨it, hit, hs⟩
    refine ⟨it, hit, ?_⟩
    unfold checkItemProduct at hs
    cases hp : it.product_id with
    | none => rw [hp] at hs; cases hs
    | some w =>
        rw [hp] at hs
        dsimp only at hs
        by_cases hw : w ≠ 0 ∧ w ∉ pids
        · rw [if_pos hw] at hs
          injection Option.some_inj.mp hs with h1 h2
          subst h2
          exact ⟨h1, rfl, hw.1, hw.2⟩
        · rw [if_neg hw] at hs; cases hs
  · rintro ⟨it, hit, hid, hp, hv0, hvm⟩
    refine ⟨it, hit, ?_⟩
    unfold checkItemProduct
    rw [hp]
    dsimp only
    rw [if_pos ⟨hv0, hvm⟩, hid]

theorem checkUserAddress_mem_iff {aids : List ℤ} {users : List UserRow}
    {uid v : ℤ} :
    RIError.userAddress uid v ∈ users.filterMap (checkUserAddress aids) ↔
      ∃ u ∈ users, u.id = uid ∧ u.address_id = some v ∧ v ≠ 0 ∧ v ∉ aids := by
  rw [List.mem_filterMap]
  constructor
  · rintro ⟨u, hu, hs⟩
    refine ⟨u, hu, ?_⟩
    unfold checkUserAddress at hs
    cases ha : u.address_id with
    | none => rw [ha] at hs; cases hs
    | some w =>
        rw [ha] at hs
        dsimp only at hs
        by_cases hw : w ≠ 0 ∧ w ∉ aids
        · rw [if_pos hw] at hs
          injection Option.some_inj.mp hs with h1 h2
          subst h2
          exact ⟨h1, rfl, hw.1, hw.2⟩
        · rw [if_neg hw] at hs; cases hs
  · rintro ⟨u, hu, hid, ha, hv0, hvm⟩
    refine ⟨u, hu, ?_⟩
    unfold checkUserAddress
    rw [ha]
    dsimp only
    rw [if_pos ⟨hv0, hvm⟩, hid]

theorem checkProductCategory_mem_iff {cids : List ℤ} {products : List ProductRow}
    {pid v : ℤ} :
    RIError.productCategory pid v ∈
        products.filterMap (checkProductCategory cids) ↔
      ∃ p ∈ products, p.id = pid ∧ p.category_id = v ∧ v ≠ 0 ∧ v ∉ cids := by
  rw [List.mem_filterMap]
  constructor
  · rintro ⟨p, hp, hs⟩
    refine ⟨p, hp, ?_⟩
    unfold checkProductCategory at hs
    by_cases hw : p.category_id ≠ 0 ∧ p.category_id ∉ cids
    · rw [if_pos hw] at hs
      injection Option.some_inj.mp hs with h1 h2
      subst h2
      exact ⟨h1, rfl, hw.1, hw.2⟩
    · rw [if_neg hw] at hs; cases hs
  · rintro ⟨p, hp, hid, hv, hv0, hvm⟩
    refine ⟨p, hp, ?_⟩
    unfold checkProductCategory
    subst hv
    rw [if_pos ⟨hv0, hvm⟩, hid]

/-- The claim C5 is false as stated: an order with the non-null foreign key
`user_id = 0` that is absent from the (empty) user id set is not reported —
the check's `if order.get("user_id") and ...` guard treats the falsy value 0
like null. -/
theorem fk_check_counterexample :
    orderZeroUser.user_id = some 0 ∧
      (0 : ℤ) ∉ ([] : List UserRow).map UserRow.id ∧
      validateReferentialIntegrity [] [] [orderZeroUser] [] [] [] = [] :=
  ⟨rfl, by simp, by decide⟩

/-- C5 (amended): for every known foreign-key relationship, the
referential-integrity check reports exactly the source rows whose foreign
key is non-null, non-zero (Python truthiness), and absent from the target
primary-key set; rows with a null, zero, or resolvable key are never
reported. -/
theorem fk_check_reports :
    ∀ (users : List UserRow) (products : List ProductRow)
      (orders : List OrderRow) (order_items : List OrderItem)
      (addresses : List Address) (categories : List Category),
    (∀ oid v : ℤ,
      RIError.orderUser oid v ∈ validateReferentialIntegrity users products
          orders order_items addresses categories ↔
        ∃ o ∈ orders, o.id = oid ∧ o.user_id = some v ∧ v ≠ 0 ∧
          v ∉ users.map UserRow.id) ∧
    (∀ iid v : ℤ,
      RIError.itemOrder iid v ∈ validateReferentialIntegrity users products
          orders order_items addresses categories ↔
        ∃ it ∈ order_items, it.id = iid ∧ it.order_id = v ∧ v ≠ 0 ∧
          v ∉ orders.map OrderRow.id) ∧
    (∀ iid v : ℤ,
      RIError.itemProduct iid v ∈ validateReferentialIntegrity users products
          orders order_items addresses categories ↔
        ∃ it ∈ order_items, it.id = iid ∧ it.product_id = some v ∧ v ≠ 0 ∧
          v ∉ products.map ProductRow.id) ∧
    (∀ uid v : ℤ,
      RIError.userAddress uid v ∈ validateReferentialIntegrity users products
          orders order_items addresses categories ↔
        ∃ u ∈ users, u.id = uid ∧ u.address_id = some v ∧ v ≠ 0 ∧
          v ∉ addresses.map Address.id) ∧
    (∀ pid v : ℤ,
      RIError.productCategory pid v ∈ validateReferentialIntegrity users
          products orders order_items addresses categories ↔
        ∃ p ∈ products, p.id = pid ∧ p.category_id = v ∧ v ≠ 0 ∧
          v ∉ categories.map Category.id) := by
  intro users products orders order_items addresses categories
  have hsplit : ∀ e : RIError,
      e ∈ validateReferentialIntegrity users products orders order_items
          addresses categories ↔
        e ∈ orders.filterMap (checkOrderUser (users.map UserRow.id)) ∨
        e ∈ order_items.filterMap (checkItemOrder (orders.map OrderRow.id)) ∨
        e ∈ order_items.filterMap
          (checkItemProduct (products.map ProductRow.id)) ∨
        e ∈ users.filterMap (checkUserAddress (addresses.map Address.id)) ∨
        e ∈ products.filterMap
          (checkProductCategory (categories.map Category.id)) := by
    intro e
    simp [validateReferentialIntegrity, List.mem_append, or_assoc]
  refine ⟨?_, ?_, ?_, ?_, ?_⟩
  · intro oid v
    rw [hsplit]
    constructor
    · rintro (h | h | h | h | h)
      · exact checkOrderUser_mem_iff.mp h
      · exact absurd (mem_filterMap_tag _ _ 1 (checkItemOrder_tag _) h) (by simp [RIError.tag])
      · exact absurd (mem_filterMap_tag _ _ 2 (checkItemProduct_tag _) h) (by simp [RIError.tag])
      · exact absurd (mem_filterMap_tag _ _ 3 (checkUserAddress_tag _) h) (by simp [RIError.tag])
      · exact absurd (mem_filterMap_tag _ _ 4 (checkProductCategory_tag _) h) (by simp [RIError.tag])
    · intro h
      exact Or.inl (checkOrderUser_mem_iff.mpr h)
  · intro iid v
    rw [hsplit]
    constructor
    · rintro (h | h | h | h | h)
      · exact absurd (mem_filterMap_tag _ _ 0 (checkOrderUser_tag _) h) (by simp [RIError.tag])
      · exact checkItemOrder_mem_iff.mp h
      · exact absurd (mem_filterMap_tag _ _ 2 (checkItemProduct_tag _) h) (by simp [RIError.tag])
      · exact absurd (mem_filterMap_tag _ _ 3 (checkUserAddress_tag _) h) (by simp [RIError.tag])
      · exact absurd (mem_filterMap_tag _ _ 4 (checkProductCategory_tag _) h) (by simp [RIError.tag])
    · intro h
      exact Or.inr (Or.inl (checkItemOrder_mem_iff.mpr h))
  · intro iid v
    rw [hsplit]
    constructor
    · rintro (h | h | h | h | h)
      · exact absurd (mem_filterMap_tag _ _ 0 (checkOrderUser_tag _) h) (by simp [RIError.tag])
      · exact absurd (mem_filterMap_tag _ _ 1 (checkItemOrder_tag _) h) (by simp [RIError.tag])
      · exact checkItemProduct_mem_iff.mp h
      · exact absurd (mem_filterMap_tag _ _ 3 (checkUserAddress_tag _) h) (by simp [RIError.tag])
      · exact absurd (mem_filterMap_tag _ _ 4 (checkProductCategory_tag _) h) (by simp [RIError.tag])
    · intro h
      exact Or.inr (Or.inr (Or.inl (checkItemProduct_mem_iff.mpr h)))
  · intro uid v
    rw [hsplit]
    constructor
    · rintro (h | h | h | h | h)
      · exact absurd (mem_filterMap_tag _ _ 0 (checkOrderUser_tag _) h) (by simp [RIError.tag])
      · exact absurd (mem_filterMap_tag _ _ 1 (checkItemOrder_tag _) h) (by simp [RIError.tag])
      · exact absurd (mem_filterMap_tag _ _ 2 (checkItemProduct_tag _) h) (by simp [RIError.tag])
      · exact checkUserAddress_mem_iff.mp h
      · exact absurd (mem_filterMap_tag _ _ 4 (checkProductCategory_tag _) h) (by simp [RIError.tag])
    · intro h
      exact Or.inr (Or.inr (Or.inr (Or.inl (checkUserAddress_mem_iff.mpr h))))
  · intro pid v
    rw [hsplit]
    constructor
    · rintro (h | h | h | h | h)
      · exact absurd (mem_filterMap_tag _ _ 0 (checkOrderUser_tag _) h) (by simp [RIError.tag])
      · exact absurd (mem_filterMap_tag _ _ 1 (checkItemOrder_tag _) h) (by simp [RIError.tag])
      · exact absurd (mem_filterMap_tag _ _ 2 (checkItemProduct_tag _) h) (by simp [RIError.tag])
      · exact absurd (mem_filterMap_tag _ _ 3 (checkUserAddress_tag _) h) (by simp [RIError.tag])
      · exact checkProductCategory_mem_iff.mp h
    · intro h
      exact Or.inr (Or.inr (Or.inr (Or.inr (checkProductCategory_mem_iff.mpr h))))

/-- Closed instance of the amended C5 theorem: a dangling non-zero `user_id`
is reported. -/
theorem fk_check_reports_witness :
    RIError.orderUser 1 7 ∈
      validateReferentialIntegrity [] [] [orderSample] [] [] [] :=
  ((fk_check_reports [] [] [orderSample] [] [] []).1 1 7).mpr
    ⟨orderSample, by decide, rfl, rfl, by decide, by simp⟩

/-- C9: the validation run passes if and only if no errors were collected
across the per-table checks and the referential-integrity check; warnings
(such as a malformed email) never fail the run, while errors (such as a
negative price) always do — shown in general and on two concrete runs. -/
theorem validation_pass_iff :
    (∀ d : ProcessedDir,
      ((validateAllFiles d).passed = true ↔ (validateAllFiles d).errors = [])) ∧
    ((validateAllFiles dirWarnOnly).passed = true ∧
      (validateAllFiles dirWarnOnly).warnings ≠ [] ∧
      (validateAllFiles dirWithError).passed = false ∧
      (validateAllFiles dirWithError).errors ≠ []) := by
  constructor
  · intro d
    have h : (validateAllFiles d).passed = (validateAllFiles d).errors.isEmpty :=
      rfl
    rw [h, List.isEmpty_iff]
  · exact ⟨by decide, by decide, by decide, by decide⟩

/-! Lemmas for the snowflake states/cities sub-dimensions. -/

theorem pyDictInsert_mem {α β : Type} [DecidableEq α] {l : List (α × β)}
    {k : α} {v : β} {e : α × β} (he : e ∈ pyDictInsert l k v) :
    e ∈ l ∨ e.1 = k := by
  unfold pyDictInsert at he
  by_cases hc : (l.map Prod.fst).contains k
  · rw [if_pos hc] at he
    obtain ⟨x, hx, hxe⟩ := List.mem_map.mp he
    by_cases hxk : x.1 = k
    · rw [if_pos hxk] at hxe
      right
      rw [← hxe]
    · rw [if_neg hxk] at hxe
      left
      rw [← hxe]
      exact hx
  · rw [if_neg hc] at he
    rcases List.mem_append.mp he with h | h
    · exact Or.inl h
    · right
      simp only [List.mem_singleton] at h
      rw [h]

theorem pyDictInsert_key_mono {α β : Type} [DecidableEq α]
    (l : List (α × β)) (k : α) (v : β) {k0 : α}
    (h : k0 ∈ l.map Prod.fst) : k0 ∈ (pyDictInsert l k v).map Prod.fst := by
  obtain ⟨x, hx, hxk⟩ := List.mem_map.mp h
  unfold pyDictInsert
  by_cases hc : (l.map Prod.fst).contains k
  · rw [if_pos hc]
    by_cases hxkk : x.1 = k
    · refine List.mem_map.mpr ⟨(k, v), ?_, by rw [← hxk, hxkk]⟩
      exact List.mem_map.mpr ⟨x, hx, by rw [if_pos hxkk]⟩
    · refine List.mem_map.mpr ⟨x, ?_, hxk⟩
      exact List.mem_map.mpr ⟨x, hx, by rw [if_neg hxkk]⟩
  · rw [if_neg hc, List.map_append]
    exact List.mem_append_left _ h

theorem pyDictInsert_key_self {α β : Type} [DecidableEq α]
    (l : List (α × β)) (k : α) (v : β) :
    k ∈ (pyDictInsert l k v).map Prod.fst := by
  unfold pyDictInsert
  by_cases hc : (l.map Prod.fst).contains k
  · rw [if_pos hc]
    obtain ⟨x, hx, hxk⟩ := List.mem_map.mp (List.mem_of_elem_eq_true hc)
    exact List.mem_map.mpr
      ⟨(k, v), List.mem_map.mpr ⟨x, hx, by rw [if_pos hxk]⟩, rfl⟩
  · rw [if_neg hc, List.map_append]
    exact List.mem_append_right _ (by simp)

theorem cityStep_mem {cache : List (String × ℤ)}
    {acc : List ((String × ℤ) × String)} {addr : Address}
    {e : (String × ℤ) × String} (he : e ∈ cityStep cache acc addr) :
    e ∈ acc ∨ (addr.city = e.1.1 ∧ addr.city ≠ "" ∧ addr.state_code ≠ "" ∧
      alistFind cache addr.state_code = some e.1.2 ∧ e.1.2 ≠ 0) := by
  unfold cityStep at he
  by_cases hg : addr.city ≠ "" ∧ addr.state_code ≠ ""
  · rw [if_pos hg] at he
    cases hf : alistFind cache addr.state_code with
    | none => rw [hf] at he; exact Or.inl he
    | some sid =>
        rw [hf] at he
        dsimp only at he
        by_cases hs : sid ≠ 0
        · rw [if_pos hs] at he
          rcases pyDictInsert_mem he with h | h
          · exact Or.inl h
          · right
            obtain ⟨⟨ec, es⟩, ev⟩ := e
            have h' : (ec, es) = (addr.city, sid) := h
            injection h' with hec hes
            subst hec
            subst hes
            exact ⟨rfl, hg.1, hg.2, rfl, hs⟩
        · rw [if_neg hs] at he; exact Or.inl he
  · rw [if_neg hg] at he; exact Or.inl he

theorem cityStep_key_mono {cache : List (String × ℤ)}
    {acc : List ((String × ℤ) × String)} {addr : Address} {k0 : String × ℤ}
    (h : k0 ∈ acc.map Prod.fst) :
    k0 ∈ (cityStep cache acc addr).map Prod.fst := by
  unfold cityStep
  by_cases hg : addr.city ≠ "" ∧ addr.state_code ≠ ""
  · rw [if_pos hg]
    cases hf : alistFind cache addr.state_code with
    | none => exact h
    | some sid =>
        dsimp only
        by_cases hs : sid ≠ 0
        · rw [if_pos hs]
          exact pyDictInsert_key_mono _ _ _ h
        · rw [if_neg hs]; exact h
  · rw [if_neg hg]; exact h

theorem cities_fold_key_mono (cache : List (String × ℤ)) :
    ∀ (l : List Address) (acc : List ((String × ℤ) × String))
      {k0 : String × ℤ}, k0 ∈ acc.map Prod.fst →
      k0 ∈ (l.foldl (cityStep cache) acc).map Prod.fst := by
  intro l
  induction l with
  | nil => intro acc k0 h; exact h
  | cons a rest ih =>
      intro acc k0 h
      rw [List.foldl_cons]
      exact ih _ (cityStep_key_mono h)

theorem cities_fold_mem (cache : List (String × ℤ)) :
    ∀ (l : List Address) (acc : List ((String × ℤ) × String))
      {e : (String × ℤ) × String}, e ∈ l.foldl (cityStep cache) acc →
      e ∈ acc ∨ ∃ addr ∈ l, addr.city = e.1.1 ∧ addr.city ≠ "" ∧
        addr.state_code ≠ "" ∧ alistFind cache addr.state_code = some e.1.2 ∧
        e.1.2 ≠ 0 := by
  intro l
  induction l with
  | nil => intro acc e he; exact Or.inl he
  | cons a rest ih =>
      intro acc e he
      rw [List.foldl_cons] at he
      rcases ih _ he with h1 | ⟨addr, haddr, hp⟩
      · rcases cityStep_mem h1 with h2 | h2
        · exact Or.inl h2
        · exact Or.inr ⟨a, List.mem_cons_self _ _, h2⟩
      · exact Or.inr ⟨addr, List.mem_cons_of_mem _ haddr, hp⟩

theorem cities_fold_complete (cache : List (String × ℤ)) :
    ∀ (l : List Address) (acc : List ((String × ℤ) × String))
      (addr : Address) (sid : ℤ), addr ∈ l → addr.city ≠ "" →
      addr.state_code ≠ "" → alistFind cache addr.state_code = some sid →
      sid ≠ 0 →
      (addr.city, sid) ∈ (l.foldl (cityStep cache) acc).map Prod.fst := by
  intro l
  induction l with
  | nil => intro acc addr sid h; exact absurd h (List.not_mem_nil addr)
  | cons a rest ih =>
      intro acc addr sid hmem hc hsc hf hs
      rw [List.foldl_cons]
      rcases List.mem_cons.mp hmem with rfl | hmem2
      · refine cities_fold_key_mono cache rest _ ?_
        unfold cityStep
        rw [if_pos ⟨hc, hsc⟩, hf]
        dsimp only
        rw [if_pos hs]
        exact pyDictInsert_key_self _ _ _
      · exact ih _ addr sid hmem2 hc hsc hf hs

theorem loadDimStates_cache_mem {addrs : List Address} {p : String × ℤ}
    (hp : p ∈ (loadDimStates addrs).2) :
    (∃ srow ∈ (loadDimStates addrs).1, srow.state_code = p.1 ∧
      srow.state_id = p.2) ∧ 1 ≤ p.2 := by
  obtain ⟨srow, hsrow, hps⟩ := List.mem_map.mp hp
  constructor
  · exact ⟨srow, hsrow, by rw [← hps], by rw [← hps]⟩
  · obtain ⟨e, _, hse⟩ := List.mem_map.mp hsrow
    have h1 : srow.state_id = (e.1 : ℤ) + 1 := by rw [← hse]
    have h2 : p.2 = srow.state_id := by rw [← hps]
    rw [h2, h1]
    omega

theorem loadDimCities_keys (a : List Address) (c : List (String × ℤ)) :
    (loadDimCities a c).1.map (fun r => (r.city_name, r.state_id)) =
      (citiesDict a c).map Prod.fst := by
  show ((citiesDict a c).enum.map _).map _ = _
  rw [List.map_map]
  have h : ((fun r : CityDimRow => (r.city_name, r.state_id)) ∘ fun
      e : ℕ × ((String × ℤ) × String) =>
        ({ city_id := (e.1 : ℤ) + 1, city_name := e.2.1.1, state_id := e.2.1.2,
           population := none, timezone := none } : CityDimRow)) =
      (Prod.fst ∘ Prod.snd) := by
    funext e
    show (e.2.1.1, e.2.1.2) = e.2.1
    exact rfl
  rw [h, ← List.map_map, List.enum_map_snd]

/-- C8: every produced snowflake city row references a state surrogate id
present in `dim_states` and stems from an address whose state code hits the
state cache; an address whose state code has no cache entry contributes no
city row and no error — in the concrete run with a single address whose
state name is empty (so no state row exists), the city table is empty. -/
theorem cities_silent_drop :
    (∀ addresses : List Address,
      (∀ row ∈ (loadDimCities addresses (loadDimStates addresses).2).1,
        ∃ srow ∈ (loadDimStates addresses).1, srow.state_id = row.state_id) ∧
      (∀ row ∈ (loadDimCities addresses (loadDimStates addresses).2).1,
        ∃ addr ∈ addresses, addr.city = row.city_name ∧
          alistFind (loadDimStates addresses).2 addr.state_code =
            some row.state_id) ∧
      (∀ addr ∈ addresses, ∀ sid : ℤ, addr.city ≠ "" → addr.state_code ≠ "" →
        alistFind (loadDimStates addresses).2 addr.state_code = some sid →
        (addr.city, sid) ∈
          (loadDimCities addresses (loadDimStates addresses).2).1.map
            fun r => (r.city_name, r.state_id))) ∧
    (loadDimCities [addrNoStateName] (loadDimStates [addrNoStateName]).2 =
        ([], []) ∧
      alistFind (loadDimStates [addrNoStateName]).2
          addrNoStateName.state_code = none ∧
      addrNoStateName.city ≠ "" ∧ addrNoStateName.state_code ≠ "") := by
  constructor
  · intro addresses
    have hrow_key : ∀ row ∈
        (loadDimCities addresses (loadDimStates addresses).2).1,
        (row.city_name, row.state_id) ∈
          (citiesDict addresses (loadDimStates addresses).2).map Prod.fst := by
      intro row hrow
      rw [← loadDimCities_keys]
      exact List.mem_map_of_mem _ hrow
    have hrow_src : ∀ row ∈
        (loadDimCities addresses (loadDimStates addresses).2).1,
        ∃ addr ∈ addresses, addr.city = row.city_name ∧
          alistFind (loadDimStates addresses).2 addr.state_code =
            some row.state_id := by
      intro row hrow
      obtain ⟨x, hx, hxk⟩ := List.mem_map.mp (hrow_key row hrow)
      obtain h := cities_fold_mem (loadDimStates addresses).2 addresses [] hx
      rcases h with h | ⟨addr, haddr, hcity, _, _, hfind, _⟩
      · exact absurd h (List.not_mem_nil x)
      · have h1 : x.1.1 = row.city_name := by rw [hxk]
        have h2 : x.1.2 = row.state_id := by rw [hxk]
        exact ⟨addr, haddr, by rw [hcity, h1], by rw [← h2]; exact hfind⟩
    refine ⟨?_, hrow_src, ?_⟩
    · intro row hrow
      obtain ⟨addr, _, _, hfind⟩ := hrow_src row hrow
      obtain ⟨⟨srow, hsrow, _, hsid⟩, _⟩ :=
        loadDimStates_cache_mem (alistFind_mem hfind)
      exact ⟨srow, hsrow, hsid⟩
    · intro addr haddr sid hc hsc hf
      have hpos := (loadDimStates_cache_mem (alistFind_mem hf)).2
      rw [loadDimCities_keys]
      exact cities_fold_complete (loadDimStates addresses).2 addresses []
        addr sid haddr hc hsc hf (by omega)
  · exact ⟨by decide, by decide, by decide, by decide⟩

/-- Closed instance of C8: in the concrete single-address run the (empty)
city table trivially references only existing states, obtained by applying
the general theorem. -/
theorem cities_silent_drop_witness :
    ∀ row ∈ (loadDimCities [addrNoStateName]
        (loadDimStates [addrNoStateName]).2).1,
      ∃ srow ∈ (loadDimStates [addrNoStateName]).1,
        srow.state_id = row.state_id :=
  (cities_silent_drop.1 [addrNoStateName]).1

/-! Calendar lemmas. -/

theorem daysInMonth_ge (y m : ℕ) : 28 ≤ daysInMonth y m := by
  unfold daysInMonth
  split_ifs <;> omega

theorem daysInMonth_le (y m : ℕ) : daysInMonth y m ≤ 31 := by
  unfold daysInMonth
  split_ifs <;> omega

theorem nextDay_valid {d : Date} (h : ValidDate d) : ValidDate (nextDay d) := by
  obtain ⟨y, m, dd⟩ := d
  have h1 : 28 ≤ daysInMonth y (m + 1) := daysInMonth_ge _ _
  have h2 : 28 ≤ daysInMonth (y + 1) 1 := daysInMonth_ge _ _
  unfold ValidDate at h
  unfold nextDay ValidDate
  dsimp only at h ⊢
  split_ifs <;> dsimp only <;> omega

theorem dateMeasure_dec {endYear : ℕ} {d : Date} (hv : ValidDate d)
    (hy : d.year ≤ endYear) :
    dateMeasure endYear (nextDay d) < dateMeasure endYear d := by
  obtain ⟨y, m, dd⟩ := d
  have h1 : 28 ≤ daysInMonth y m := daysInMonth_ge _ _
  have h2 : daysInMonth y m ≤ 31 := daysInMonth_le _ _
  unfold ValidDate at hv
  unfold nextDay dateMeasure
  dsimp only at hv hy ⊢
  split_ifs <;> dsimp only <;> omega

theorem dateLT_next {d : Date} (h : ValidDate d) : dateLT d (nextDay d) := by
  obtain ⟨y, m, dd⟩ := d
  unfold ValidDate at h
  unfold nextDay dateLT
  dsimp only at h ⊢
  split_ifs <;> dsimp only <;> omega

theorem dateLT_trans {a b c : Date} (h1 : dateLT a b) (h2 : dateLT b c) :
    dateLT a c := by
  obtain ⟨ay, am, ad⟩ := a
  obtain ⟨yb, mb, db⟩ := b
  obtain ⟨yc, mc, dc⟩ := c
  unfold dateLT at *
  dsimp only at *
  omega

theorem dateLT_le {a b : Date} (h : dateLT a b) : dateLE a b := by
  obtain ⟨ay, am, ad⟩ := a
  obtain ⟨yb, mb, db⟩ := b
  unfold dateLT at h
  unfold dateLE
  dsimp only at *
  omega

theorem dateLT_le_trans {a b c : Date} (h1 : dateLT a b) (h2 : dateLE b c) :
    dateLE a c := by
  obtain ⟨ay, am, ad⟩ := a
  obtain ⟨yb, mb, db⟩ := b
  obtain ⟨yc, mc, dc⟩ := c
  unfold dateLT at h1
  unfold dateLE at *
  dsimp only at *
  omega

theorem dateLE_year {a b : Date} (h : dateLE a b) : a.year ≤ b.year := by
  obtain ⟨ay, am, ad⟩ := a
  obtain ⟨yb, mb, db⟩ := b
  unfold dateLE at h
  dsimp only at *
  omega

theorem dateLE_lt_or_eq {a b : Date} (h : dateLE a b) : dateLT a b ∨ a = b := by
  obtain ⟨ay, am, ad⟩ := a
  obtain ⟨yb, mb, db⟩ := b
  by_cases he : ay = yb ∧ am = mb ∧ ad = db
  · right
    obtain ⟨e1, e2, e3⟩ := he
    subst e1; subst e2; subst e3
    rfl
  · left
    unfold dateLE at h
    unfold dateLT
    dsimp only at *
    omega

theorem nextDay_le_of_lt {a b : Date} (ha : ValidDate a) (hb : ValidDate b)
    (hab : dateLT a b) : dateLE (nextDay a) b := by
  obtain ⟨ay, am, ad⟩ := a
  obtain ⟨yb, mb, db⟩ := b
  have h1 : 28 ≤ daysInMonth ay am := daysInMonth_ge _ _
  have h2 : daysInMonth ay am ≤ 31 := daysInMonth_le _ _
  have h3 : daysInMonth yb mb ≤ 31 := daysInMonth_le _ _
  unfold ValidDate at ha hb
  unfold dateLT at hab
  unfold nextDay
  dsimp only at *
  by_cases hy : ay = yb
  · subst hy
    by_cases hm : am = mb
    · subst hm
      split_ifs <;> unfold dateLE <;> dsimp only <;> omega
    · split_ifs <;> unfold dateLE <;> dsimp only <;> omega
  · split_ifs <;> unfold dateLE <;> dsimp only <;> omega

theorem iterate_nextDay_valid {d : Date} (h : ValidDate d) :
    ∀ n, ValidDate (nextDay^[n] d) := by
  intro n
  induction n with
  | zero => exact h
  | succ k ih =>
      rw [Function.iterate_succ_apply']
      exact nextDay_valid ih

theorem iterate_nextDay_lt {d : Date} (h : ValidDate d) :
    ∀ n, 0 < n → dateLT d (nextDay^[n] d) := by
  intro n
  induction n with
  | zero => intro h0; exact absurd h0 (by omega)
  | succ k ih =>
      intro _
      rw [Function.iterate_succ_apply']
      rcases Nat.eq_zero_or_pos k with hk | hk
      · subst hk
        exact dateLT_next h
      · exact dateLT_trans (ih hk) (dateLT_next (iterate_nextDay_valid h k))

theorem iterate_nextDay_strict {d : Date} (h : ValidDate d) {i j : ℕ}
    (hij : i < j) : dateLT (nextDay^[i] d) (nextDay^[j] d) := by
  have hj : j = (j - i) + i := by omega
  rw [hj, Function.iterate_add_apply]
  exact iterate_nextDay_lt (iterate_nextDay_valid h i) (j - i) (by omega)

theorem genDatesAux_cons {endYear f : ℕ} {cur : Date} {id : ℕ}
    (hy : cur.year ≤ endYear) :
    genDatesAux endYear (f + 1) cur id =
      mkDateRow id cur :: genDatesAux endYear f (nextDay cur) (id + 1) := by
  rw [genDatesAux, if_pos hy]

theorem genDatesAux_nil {endYear f : ℕ} {cur : Date} {id : ℕ}
    (hy : ¬ cur.year ≤ endYear) :
    genDatesAux endYear (f + 1) cur id = [] := by
  rw [genDatesAux, if_neg hy]

theorem genAux_get? (endYear : ℕ) :
    ∀ (fuel : ℕ) (cur : Date) (id : ℕ), ValidDate cur →
      dateMeasure endYear cur < fuel →
      ∀ i, i < (genDatesAux endYear fuel cur id).length →
        (genDatesAux endYear fuel cur id).get? i =
          some (mkDateRow (id + i) (nextDay^[i] cur)) := by
  intro fuel
  induction fuel with
  | zero => intro cur id _ hm; exact absurd hm (by omega)
  | succ f ih =>
      intro cur id hv hm i h
      by_cases hy : cur.year ≤ endYear
      · rw [genDatesAux_cons hy] at h ⊢
        cases i with
        | zero => rfl
        | succ i0 =>
            have h2 : i0 < (genDatesAux endYear f (nextDay cur) (id + 1)).length := by
              simpa using h
            have hrec := ih (nextDay cur) (id + 1) (nextDay_valid hv)
              (by have := dateMeasure_dec hv hy; omega) i0 h2
            show (genDatesAux endYear f (nextDay cur) (id + 1)).get? i0 = _
            rw [hrec, Function.iterate_succ_apply]
            have harith : id + 1 + i0 = id + (i0 + 1) := by omega
            rw [harith]
      · rw [genDatesAux_nil hy] at h
        exact absurd h (by simp)

theorem genAux_mem (endYear : ℕ) :
    ∀ (fuel : ℕ) (cur : Date) (id : ℕ), ValidDate cur →
      ∀ row ∈ genDatesAux endYear fuel cur id,
        ∃ d : Date, ValidDate d ∧ d.year ≤ endYear ∧ dateLE cur d ∧
          row = mkDateRow row.date_id d := by
  intro fuel
  induction fuel with
  | zero => intro cur id _ row hrow; exact absurd hrow (by simp [genDatesAux])
  | succ f ih =>
      intro cur id hv row hrow
      by_cases hy : cur.year ≤ endYear
      · rw [genDatesAux_cons hy] at hrow
        rcases List.mem_cons.mp hrow with rfl | htail
        · exact ⟨cur, hv, hy, Or.inr ⟨rfl, Or.inr ⟨rfl, le_refl _⟩⟩, rfl⟩
        · obtain ⟨d, hvd, hyd, hled, heq⟩ :=
            ih (nextDay cur) (id + 1) (nextDay_valid hv) row htail
          exact ⟨d, hvd, hyd, dateLT_le_trans (dateLT_next hv) hled, heq⟩
      · rw [genDatesAux_nil hy] at hrow
        exact absurd hrow (by simp)

theorem genAux_reach (endYear : ℕ) :
    ∀ (fuel : ℕ) (cur : Date) (id : ℕ), ValidDate cur →
      dateMeasure endYear cur < fuel →
      ∀ target : Date, ValidDate target → target.year ≤ endYear →
        dateLE cur target →
        target ∈ (genDatesAux endYear fuel cur id).map DateRow.full_date := by
  intro fuel
  induction fuel with
  | zero => intro cur id _ hm; exact absurd hm (by omega)
  | succ f ih =>
      intro cur id hv hm target hvt hyt hle
      have hy : cur.year ≤ endYear := le_trans (dateLE_year hle) hyt
      rw [genDatesAux_cons hy, List.map_cons]
      rcases dateLE_lt_or_eq hle with hlt | heq
      · exact List.mem_cons_of_mem _
          (ih (nextDay cur) (id + 1) (nextDay_valid hv)
            (by have := dateMeasure_dec hv hy; omega) target hvt hyt
            (nextDay_le_of_lt hv hvt hlt))
      · rw [heq]
        exact List.mem_cons_self _ _

theorem startDate_valid (y : ℕ) : ValidDate ⟨y, 1, 1⟩ := by
  unfold ValidDate
  have := daysInMonth_ge y 1
  dsimp only
  omega

theorem startMeasure_lt (startYear endYear : ℕ) :
    dateMeasure endYear ⟨startYear, 1, 1⟩ < genFuel startYear endYear := by
  unfold dateMeasure genFuel
  dsimp only
  omega

set_option maxRecDepth 8000 in
set_option maxHeartbeats 1000000 in
/-- C3: the generated date dimension lists one row per calendar day from
January 1 of `start_year` through December 31 of `end_year`, in strictly
ascending date order with `date_id` running 1..N sequentially: ids are
sequential from 1, dates strictly increase (hence no duplicates), every row
is a valid date with year in range, every valid date with year in range
occurs, and the 2020-2021 instance has exactly 731 rows. -/
theorem calendar_generation :
    (∀ startYear endYear : ℕ,
      (∀ i (h : i < (generateDateDimension startYear endYear).length),
        ((generateDateDimension startYear endYear).get ⟨i, h⟩).date_id = i + 1) ∧
      (∀ i j (hi : i < (generateDateDimension startYear endYear).length)
         (hj : j < (generateDateDimension startYear endYear).length), i < j →
        dateLT ((generateDateDimension startYear endYear).get ⟨i, hi⟩).full_date
          ((generateDateDimension startYear endYear).get ⟨j, hj⟩).full_date) ∧
      (∀ row ∈ generateDateDimension startYear endYear,
        ValidDate row.full_date ∧ startYear ≤ row.full_date.year ∧
          row.full_date.year ≤ endYear) ∧
      (∀ d : Date, ValidDate d → startYear ≤ d.year → d.year ≤ endYear →
        d ∈ (generateDateDimension startYear endYear).map DateRow.full_date)) ∧
    (generateDateDimension 2020 2021).length = 731 := by
  constructor
  · intro startYear endYear
    have hv := startDate_valid startYear
    have hm := startMeasure_lt startYear endYear
    unfold generateDateDimension
    refine ⟨?_, ?_, ?_, ?_⟩
    · intro i h
      have hq := genAux_get? endYear (genFuel startYear endYear)
        ⟨startYear, 1, 1⟩ 1 hv hm i h
      rw [List.get?_eq_get h] at hq
      rw [Option.some_inj.mp hq]
      show 1 + i = i + 1
      omega
    · intro i j hi hj hij
      have hqi := genAux_get? endYear (genFuel startYear endYear)
        ⟨startYear, 1, 1⟩ 1 hv hm i hi
      have hqj := genAux_get? endYear (genFuel startYear endYear)
        ⟨startYear, 1, 1⟩ 1 hv hm j hj
      rw [List.get?_eq_get hi] at hqi
      rw [List.get?_eq_get hj] at hqj
      rw [Option.some_inj.mp hqi, Option.some_inj.mp hqj]
      exact iterate_nextDay_strict hv hij
    · intro row hrow
      obtain ⟨d, hvd, hyd, hled, heq⟩ :=
        genAux_mem endYear (genFuel startYear endYear) ⟨startYear, 1, 1⟩ 1 hv
          row hrow
      have hfd : row.full_date = d := (congrArg DateRow.full_date heq).trans rfl
      rw [hfd]
      exact ⟨hvd, dateLE_year hled, hyd⟩
    · intro d hvd h1 h2
      refine genAux_reach endYear (genFuel startYear endYear)
        ⟨startYear, 1, 1⟩ 1 hv hm d hvd h2 ?_
      obtain ⟨dy, dm, dd⟩ := d
      unfold ValidDate at hvd
      unfold dateLE
      dsimp only at *
      omega
  · decide

/-- Closed instance of C3: the 2020-2021 dimension has 731 rows and reaches
January 1 2020, obtained by applying the general theorem. -/
theorem calendar_generation_witness :
    (generateDateDimension 2020 2021).length = 731 ∧
      (⟨2020, 1, 1⟩ : Date) ∈
        (generateDateDimension 2020 2021).map DateRow.full_date :=
  ⟨calendar_generation.2,
   (calendar_generation.1 2020 2021).2.2.2 ⟨2020, 1, 1⟩ (by decide) (by decide)
     (by decide)⟩

/-- C6: every generated row's derived attributes satisfy the documented
formulas: quarter `(month-1)//3+1`, Monday-based `day_of_week` in 1..7, ISO
week number, weekend flag iff 0-indexed weekday ≥ 5, holiday flag iff
(month, day) is Jan 1, Jul 4 or Dec 25, fiscal year bumping in October, and
fiscal quarter `((month-10) % 12)//3 + 1`. -/
theorem calendar_attributes :
    ∀ (startYear endYear : ℕ),
      ∀ row ∈ generateDateDimension startYear endYear,
        row.quarter = (row.month - 1) / 3 + 1 ∧
        row.day_of_week = weekday row.full_date + 1 ∧
        1 ≤ row.day_of_week ∧ row.day_of_week ≤ 7 ∧
        row.week_of_year = isoWeek row.full_date ∧
        (row.is_weekend = true ↔ 5 ≤ weekday row.full_date) ∧
        (row.is_holiday = true ↔ ((row.month, row.day) = (1, 1) ∨
          (row.month, row.day) = (7, 4) ∨ (row.month, row.day) = (12, 25))) ∧
        row.fiscal_year = (if row.month < 10 then row.year else row.year + 1) ∧
        row.fiscal_quarter = ((row.month : ℤ) - 10) % 12 / 3 + 1 := by
  intro startYear endYear row hrow
  obtain ⟨d, hvd, _, _, heq⟩ :=
    genAux_mem endYear (genFuel startYear endYear) ⟨startYear, 1, 1⟩ 1
      (startDate_valid startYear) row hrow
  rw [heq]
  have hwd : weekday d < 7 := Nat.mod_lt _ (by omega)
  refine ⟨rfl, rfl, by show 1 ≤ weekday d + 1; omega,
    by show weekday d + 1 ≤ 7; omega, rfl, ?_, ?_, rfl, rfl⟩
  · show decide (5 ≤ weekday d) = true ↔ 5 ≤ weekday d
    exact decide_eq_true_iff
  · show decide ((d.month, d.day) ∈ holidays) = true ↔
      ((d.month, d.day) = (1, 1) ∨ (d.month, d.day) = (7, 4) ∨
        (d.month, d.day) = (12, 25))
    rw [decide_eq_true_iff]
    simp [holidays]

/-- Closed instance of C6: the first generated row of 2020 maps
January 1 2020 (a Wednesday, ISO week 1) as the theorem states. -/
theorem calendar_attributes_witness :
    (mkDateRow 1 ⟨2020, 1, 1⟩).day_of_week = weekday ⟨2020, 1, 1⟩ + 1 ∧
      weekday (⟨2020, 1, 1⟩ : Date) = 2 ∧ isoWeek (⟨2020, 1, 1⟩ : Date) = 1 ∧
      (mkDateRow 1 ⟨2020, 1, 1⟩).is_holiday = true := by
  have hmem : mkDateRow 1 ⟨2020, 1, 1⟩ ∈ generateDateDimension 2020 2020 := by
    rw [show generateDateDimension 2020 2020 =
        mkDateRow 1 ⟨2020, 1, 1⟩ ::
          genDatesAux 2020 771 (nextDay ⟨2020, 1, 1⟩) 2 from rfl]
    exact List.mem_cons_self _ _
  have h := calendar_attributes 2020 2020 (mkDateRow 1 ⟨2020, 1, 1⟩) hmem
  exact ⟨h.2.1, by decide, by decide, h.2.2.2.2.2.2.1.mpr (by decide)⟩

end Spec2Proof
